import Mathlib

/-! # caddy-modules: the `chrome` and `auth_request` HTTP handlers

A shallow embedding of the two Caddy middleware handlers of the repository
(`chrome/chrome.go`, `auth_request/auth_request.go`) together with the parts of
the Go standard library they call (`strings.Contains`, `net/textproto`
canonical header keys, `net/http.Header`, `encoding/base64`).

Conventions
* a Go `string` and a Go `[]byte` are both sequences of bytes: `GoString`;
* a Go `map[K]V` is an association list; the order of the list is the order in
  which a `range` loop visits the map, which Go leaves unspecified, so results
  are stated for every list;
* a Go `int` that is only compared and stored is an `Int`;
* calls into collaborators that live outside the repository (the next
  handler, the origin server, the browser automation endpoint) are recorded
  as events of a trace, and what they answer is an input of the model.
-/

set_option autoImplicit false

namespace CaddyModules

/-! ## Go strings -/

/-- One byte. -/
abbrev Byte := Fin 256

/-- A Go `string` (or `[]byte`): a sequence of bytes. -/
abbrev GoString := List Byte

/-- The bytes of an ASCII string literal of the source. -/
def ascii (s : String) : GoString :=
  s.toList.map (fun c => Fin.ofNat c.toNat)

/-- Go `strings.HasPrefix(s, p)`. -/
def hasPrefix : GoString → GoString → Bool
  | _, [] => true
  | [], _ :: _ => false
  | c :: s, d :: p => c == d && hasPrefix s p

/-- Go `strings.Contains(s, substr)`: `substr` occurs in `s` at some offset. -/
def stringsContains : GoString → GoString → Bool
  | [], substr => hasPrefix [] substr
  | c :: s, substr => hasPrefix (c :: s) substr || stringsContains s substr

/-! ## `net/textproto`: canonical header keys -/

/-- The token bytes of RFC 7230 (`validHeaderFieldByte` of `net/textproto`,
also `httpguts.IsTokenRune` restricted to bytes): the ASCII letters and digits
and the fifteen punctuation bytes 33, 35 to 39, 42, 43, 45, 46, 94, 95, 96,
124 and 126. -/
def validHeaderFieldByte (c : Byte) : Bool :=
  (48 ≤ c.val && c.val ≤ 57) || (65 ≤ c.val && c.val ≤ 90) || (97 ≤ c.val && c.val ≤ 122) ||
  c.val == 33 || c.val == 35 || c.val == 36 || c.val == 37 || c.val == 38 || c.val == 39 ||
  c.val == 42 || c.val == 43 || c.val == 45 || c.val == 46 || c.val == 94 || c.val == 95 ||
  c.val == 96 || c.val == 124 || c.val == 126

/-- The letter-case loop of `canonicalMIMEHeaderKey`: upper case for the first
letter and for a letter after a dash, lower case for the others. -/
def canonicalLoop : Bool → GoString → GoString
  | _, [] => []
  | upper, c :: rest =>
    let d : Byte :=
      if upper && 97 ≤ c.val && c.val ≤ 122 then Fin.ofNat (c.val - 32)
      else if !upper && 65 ≤ c.val && c.val ≤ 90 then Fin.ofNat (c.val + 32)
      else c
    d :: canonicalLoop (d.val == 45) rest

/-- Go `textproto.CanonicalMIMEHeaderKey`: a key that holds a byte that is not
a token byte (a space included) is returned unchanged; any other key gets the
canonical letter case. -/
def CanonicalMIMEHeaderKey (s : GoString) : GoString :=
  if s.all validHeaderFieldByte then canonicalLoop true s else s

/-! ## `net/http.Header` -/

/-- Go `http.Header`, a `map[string][]string`. -/
abbrev Header := List (GoString × List GoString)

namespace Header

/-- The map index expression `h[key]`: the values stored under exactly `key`. -/
def index (h : Header) (key : GoString) : Option (List GoString) :=
  h.lookup key

/-- Go `delete(h, key)`. -/
def delete (h : Header) (key : GoString) : Header :=
  h.filter (fun e => e.1 != key)

/-- Go `h[key] = vs`. -/
def assign (h : Header) (key : GoString) (vs : List GoString) : Header :=
  if h.any (fun e => e.1 == key) then
    h.map (fun e => if e.1 == key then (key, vs) else e)
  else h ++ [(key, vs)]

/-- Go `Header.Get`: the first value under the canonical form of `key`, or
the empty string. -/
def Get (h : Header) (key : GoString) : GoString :=
  match h.index (CanonicalMIMEHeaderKey key) with
  | some (v :: _) => v
  | _ => []

/-- Go `Header.Set`: the canonical form of `key` gets the single value. -/
def Set (h : Header) (key value : GoString) : Header :=
  h.assign (CanonicalMIMEHeaderKey key) [value]

/-- Go `Header.Del`: the canonical form of `key` is deleted. -/
def Del (h : Header) (key : GoString) : Header :=
  h.delete (CanonicalMIMEHeaderKey key)

/-- Go `Header.Clone`: a deep copy. -/
def Clone (h : Header) : Header := h

/-- The keys of the map are pairwise distinct, as in every Go map. -/
def WellFormed (h : Header) : Prop := (h.map Prod.fst).Nodup

end Header

/-! ## Errors and requests -/

/-- A Go `error` value, as far as the handlers build one. -/
inductive GoError where
  /-- The value of `errors.New(msg)` or of `fmt.Errorf` with the text `msg`. -/
  | errorString (msg : GoString)
  /-- The value of `caddyhttp.Error(statusCode, err)`: a `HandlerError`. -/
  | handlerError (statusCode : Int) (err : GoError)
  /-- A `*runtime.ExceptionDetails` of the browser, returned as an error. -/
  | exceptionDetails (text : GoString)
  deriving DecidableEq, Repr

/-- The functions of `net/url` that the handlers and `net/http` call, over a
type `U` of parsed URLs (`*url.URL`). -/
structure NetURL (U : Type) where
  /-- Go `url.Parse`. -/
  Parse : GoString → Except GoError U
  /-- Go `(*URL).String`. -/
  urlString : U → GoString
  /-- Go `(*URL).RequestURI`. -/
  RequestURI : U → GoString
  /-- Go `base.ResolveReference(ref)`. -/
  ResolveReference : U → U → U
  /-- The update `u.Host = removeEmptyPort(u.Host)`. -/
  removeEmptyPort : U → U
  /-- The field `u.Host`. -/
  Host : U → GoString

/-- Go `*http.Request`: the fields the handlers read or set. -/
structure Request (U : Type) where
  Method : GoString
  URL : U
  Header : Header
  /-- The field `Body`; `none` is the nil body. -/
  Body : Option GoString
  Host : GoString
  deriving DecidableEq, Repr

/-- Go `validMethod` of `net/http`: a non-empty sequence of token bytes. -/
def validMethod (method : GoString) : Bool :=
  !method.isEmpty && method.all validHeaderFieldByte

/-- Go `http.NewRequestWithContext(ctx, method, url, nil)` with a non-nil
context: the empty method stands for GET, an invalid method or a URL that
does not parse is an error, and the new request has an empty header map and
no body. The quoting of the method in the error text is left out. -/
def NewRequestWithContext {U : Type} (net : NetURL U) (method url : GoString) :
    Except GoError (Request U) :=
  let method := if method = [] then ascii "GET" else method
  if !validMethod method then
    .error (.errorString (ascii "net/http: invalid method " ++ method))
  else
    match net.Parse url with
    | .error err => .error err
    | .ok u =>
      let u := net.removeEmptyPort u
      .ok { Method := method, URL := u, Header := [], Body := none, Host := net.Host u }

/-- The identity of an `http.ResponseWriter` handed in by the server. -/
abbrev ResponseWriter := Nat

/-- What a handler does with the `http.ResponseWriter` it is given: the
sequence of method calls it makes on it. `header f` is a call of `Header()`
followed by the update `f` of the returned map. -/
inductive WriterCall where
  | header (f : Header → Header)
  | write (data : GoString)
  | writeHeader (statusCode : Int)

/-- The origin server as an `http.Handler`: the calls it makes on the writer
when it serves a request. -/
abbrev Server (U : Type) := Request U → List WriterCall

/-! ## Header maps as shared objects

A Go `http.Header` is a reference to a map: `Del` and `Set` change the map in
place for every holder of the reference, and only `Clone` makes a new map. The
store below keeps the maps by address, so that a deletion on a clone and a
deletion on the original map are different things. -/

/-- The header maps that exist, by address. -/
abbrev Heap := List Header

namespace Heap

/-- The map at address `p`. -/
def read (heap : Heap) (p : Nat) : Header := heap.getD p []

/-- Go `h.Clone()` for the map at address `p`: a new map with the same
content, at a fresh address. -/
def Clone (heap : Heap) (p : Nat) : Heap × Nat :=
  (heap ++ [(heap.read p).Clone], heap.length)

/-- Go `h.Del(key)` for the map at address `p`: the map is changed in place. -/
def Del (heap : Heap) (p : Nat) (key : GoString) : Heap :=
  heap.set p ((heap.read p).Del key)

end Heap

/-! ## Package `auth_request` -/

namespace auth_request

/-- The handler `AuthRequest` after `Provision`: the configured URI and its
parse. -/
structure AuthRequest (U : Type) where
  URI : GoString
  parsedURI : U

/-- The type `subResponseWriter` of the package. -/
structure subResponseWriter where
  statusCode : Int
  header : Header
  deriving DecidableEq, Repr

namespace subResponseWriter

/-- Method `Header`. -/
def Header (w : subResponseWriter) : CaddyModules.Header := w.header

/-- Method `Write`: the writer is unchanged and the result is
`(len(data), nil)`. -/
def Write (w : subResponseWriter) (data : GoString) :
    subResponseWriter × Nat × Option GoError :=
  (w, data.length, none)

/-- Method `WriteHeader`. -/
def WriteHeader (w : subResponseWriter) (statusCode : Int) : subResponseWriter :=
  { w with statusCode := statusCode }

/-- One call of the origin server on the writer. -/
def call (w : subResponseWriter) : WriterCall → subResponseWriter
  | .header f => { w with header := f w.Header }
  | .write data => (w.Write data).1
  | .writeHeader statusCode => w.WriteHeader statusCode

/-- The writer after the origin server made the calls `cs` on it. -/
def serve (w : subResponseWriter) (cs : List WriterCall) : subResponseWriter :=
  cs.foldl call w

end subResponseWriter

/-- The calls `AuthRequest.ServeHTTP` makes on its collaborators. -/
inductive Event (U : Type) where
  /-- The call `server.ServeHTTP(subResponse, subRequest)`. -/
  | serverServeHTTP (subRequest : Request U)
  /-- The call `ar.logger.Debug` with the method, URI and status fields. -/
  | loggerDebug (method uri : GoString) (status : Int)
  /-- The call `next.ServeHTTP(w, r)`. -/
  | nextServeHTTP (w : ResponseWriter) (r : Request U)
  deriving DecidableEq, Repr

/-- The next handler of the chain: the error it returns for a writer and a
request (`none` is nil). -/
abbrev NextHandler (U : Type) := ResponseWriter → Request U → Option GoError

/-- One run of `ServeHTTP`: the calls made, in order, and the returned error
(`none` is nil). -/
structure Run (U : Type) where
  trace : List (Event U)
  result : Option GoError

/-- The method `AuthRequest.ServeHTTP`. The header map of `r` is the map at
address `rHeader`, the one of the sub-request the map at `subRequestHeader`;
the request that the next handler gets is `r` with the content its header map
has at that moment. -/
def ServeHTTP {U : Type} (net : NetURL U) (server : Server U) (ar : AuthRequest U)
    (w : ResponseWriter) (r : Request U) (next : NextHandler U) : Run U :=
  let subURI := net.urlString (net.ResolveReference r.URL ar.parsedURI)
  match NewRequestWithContext net (ascii "GET") subURI with
  | .error err => { trace := [], result := some err }
  | .ok subRequest =>
    let rHeader : Nat := 0
    let heap : Heap := [r.Header]
    let (heap, subRequestHeader) := heap.Clone rHeader
    let heap := heap.Del subRequestHeader (ascii "Content-Type")
    let heap := heap.Del subRequestHeader (ascii "Content-Length")
    let subRequest := { subRequest with Header := heap.read subRequestHeader }
    let r := { r with Header := heap.read rHeader }
    let subResponse : subResponseWriter := { statusCode := 0, header := [] }
    let subResponse := subResponse.serve (server subRequest)
    let trace := [Event.serverServeHTTP subRequest,
      Event.loggerDebug subRequest.Method subURI subResponse.statusCode]
    if subResponse.statusCode = 401 then
      { trace := trace
        result := some (.handlerError 401 (.errorString (ascii "unauthorized"))) }
    else if subResponse.statusCode = 403 then
      { trace := trace
        result := some (.handlerError 403 (.errorString (ascii "forbidden"))) }
    else if subResponse.statusCode < 200 ∨ subResponse.statusCode ≥ 300 then
      { trace := trace
        result := some (.errorString (ascii "sub-request returned unexpected error code [" ++
          ascii (toString subResponse.statusCode) ++ ascii "]")) }
    else
      { trace := trace ++ [Event.nextServeHTTP w r], result := next w r }

end auth_request

/-! ## `encoding/base64` -/

namespace base64

/-- The alphabet `encodeStd` of the standard encoding. -/
def encodeStd : GoString :=
  ascii "ABCDEFGHIJKLMNOPQRSTUVWXYZabcdefghijklmnopqrstuvwxyz0123456789+/"

/-- The padding character `StdPadding`, the byte of `=`. -/
def StdPadding : Byte := 61

/-- The table lookup `enc.encode[i]`. -/
def encode (i : Nat) : Byte := encodeStd.getD i 0

/-- Go `base64.StdEncoding.EncodeToString`. A group of three bytes is the
24-bit number `val` (the shifts and ors of the source are written as sums and
quotients, the bit fields being disjoint) and gives four characters; a last
group of one or two bytes gives two or three characters and is padded. -/
def EncodeToString : GoString → GoString
  | [] => []
  | [a] =>
    let val := a.val * 65536
    [encode (val / 262144 % 64), encode (val / 4096 % 64), StdPadding, StdPadding]
  | [a, b] =>
    let val := a.val * 65536 + b.val * 256
    [encode (val / 262144 % 64), encode (val / 4096 % 64), encode (val / 64 % 64), StdPadding]
  | a :: b :: c :: rest =>
    let val := a.val * 65536 + b.val * 256 + c.val
    encode (val / 262144 % 64) :: encode (val / 4096 % 64) :: encode (val / 64 % 64) ::
      encode (val % 64) :: EncodeToString rest

/-- The value of a character of the alphabet: its position in `encodeStd`. -/
def decodeChar (c : Byte) : Option Nat :=
  let i := encodeStd.indexOf c
  if i < 64 then some i else none

/-- The decoding of RFC 4648 with padding (Go `StdEncoding.DecodeString`
on input without line breaks): four characters give three bytes; a last group
ending in one or two padding characters gives two bytes or one. -/
def DecodeString : GoString → Option GoString
  | [] => some []
  | c0 :: c1 :: c2 :: c3 :: rest =>
    if rest = [] ∧ c3 = StdPadding then
      if c2 = StdPadding then
        match decodeChar c0, decodeChar c1 with
        | some v0, some v1 => some [Fin.ofNat ((v0 * 64 + v1) / 16)]
        | _, _ => none
      else
        match decodeChar c0, decodeChar c1, decodeChar c2 with
        | some v0, some v1, some v2 =>
          let val := (v0 * 4096 + v1 * 64 + v2) / 4
          some [Fin.ofNat (val / 256), Fin.ofNat (val % 256)]
        | _, _, _ => none
    else
      match decodeChar c0, decodeChar c1, decodeChar c2, decodeChar c3, DecodeString rest with
      | some v0, some v1, some v2, some v3, some bytes =>
        let val := v0 * 262144 + v1 * 4096 + v2 * 64 + v3
        some (Fin.ofNat (val / 65536) :: Fin.ofNat (val / 256 % 256) ::
          Fin.ofNat (val % 256) :: bytes)
      | _, _, _, _, _ => none
  | _ => none

end base64

/-! ## Package `chrome` -/

namespace chrome

/-- The handler `Chrome`: the DevTools URL and the MIME types to render. A nil
slice and an empty slice are both the empty list. -/
structure Chrome where
  URL : GoString
  MIMETypes : List GoString

/-- The loop `for _, mimeType := range c.MIMETypes` of the buffering
predicate. -/
def rangeMIMETypes (contentType : GoString) : List GoString → Bool
  | [] => false
  | mimeType :: rest =>
    if stringsContains contentType mimeType then true else rangeMIMETypes contentType rest

/-- The function literal that `ServeHTTP` passes to
`caddyhttp.NewResponseRecorder`: whether to buffer a response with this status
and header. -/
def shouldBuffer (c : Chrome) (_status : Int) (header : Header) : Bool :=
  let contentType := header.Get (ascii "Content-Type")
  rangeMIMETypes contentType c.MIMETypes

/-- The `caddyhttp.ResponseRecorder` around the client's writer `w`: the
predicate it was built with, the recorded status, the header map of `w`, the
buffer, and whether it streams instead of buffering. -/
structure ResponseRecorder where
  w : ResponseWriter
  shouldBuffer : Int → Header → Bool
  statusCode : Int
  header : Header
  buf : GoString
  stream : Bool

namespace ResponseRecorder

/-- Method `Buffered` of the recorder. -/
def Buffered (rr : ResponseRecorder) : Bool := !rr.stream

end ResponseRecorder

/-- Go `caddyhttp.NewResponseRecorder(w, buf, shouldBuffer)`; `header` is the
header map of `w` and `buf` the content of the pooled buffer. -/
def NewResponseRecorder (w : ResponseWriter) (header : Header) (buf : GoString)
    (shouldBuffer : Int → Header → Bool) : ResponseRecorder :=
  { w := w, shouldBuffer := shouldBuffer, statusCode := 0, header := header, buf := buf,
    stream := false }

/-- The next handler of the chain run on the recorder: the recorder it leaves
behind and the error it returns (`none` is nil). -/
abbrev NextHandler (U : Type) := ResponseRecorder → Request U → ResponseRecorder × Option GoError

/-- The interface `response`: what `Status()`, `Header()` and `Buffer()`
return. -/
structure response where
  Status : Int
  Header : Header
  Buffer : GoString
  deriving DecidableEq, Repr

/-- The recorder as a `response`. -/
def ResponseRecorder.toResponse (rr : ResponseRecorder) : response :=
  { Status := rr.statusCode, Header := rr.header, Buffer := rr.buf }

/-- The type `subResponseWriter` of the package. -/
structure subResponseWriter where
  statusCode : Int
  header : Header
  buf : GoString
  deriving DecidableEq, Repr

namespace subResponseWriter

/-- Method `Status`. -/
def Status (w : subResponseWriter) : Int := w.statusCode

/-- Method `Header`. -/
def Header (w : subResponseWriter) : CaddyModules.Header := w.header

/-- Method `Buffer`. -/
def Buffer (w : subResponseWriter) : GoString := w.buf

/-- Method `Write`: `w.buf.Write(data)` appends and returns `(len(data), nil)`. -/
def Write (w : subResponseWriter) (data : GoString) :
    subResponseWriter × Nat × Option GoError :=
  ({ w with buf := w.buf ++ data }, data.length, none)

/-- Method `WriteHeader`. -/
def WriteHeader (w : subResponseWriter) (statusCode : Int) : subResponseWriter :=
  { w with statusCode := statusCode }

/-- One call of the origin server on the writer. -/
def call (w : subResponseWriter) : WriterCall → subResponseWriter
  | .header f => { w with header := f w.Header }
  | .write data => (w.Write data).1
  | .writeHeader statusCode => w.WriteHeader statusCode

/-- The writer after the origin server made the calls `cs` on it. -/
def serve (w : subResponseWriter) (cs : List WriterCall) : subResponseWriter :=
  cs.foldl call w

/-- The writer as a `response`. -/
def toResponse (w : subResponseWriter) : response :=
  { Status := w.Status, Header := w.Header, Buffer := w.Buffer }

end subResponseWriter

/-! ### The relay of paused requests (the body of the goroutine's loop) -/

/-- The constant `network.ResourceTypeDocument`. -/
def ResourceTypeDocument : GoString := ascii "Document"

/-- The fields of `network.Request` that the relay reads; `Headers` is the raw
JSON object. -/
structure PausedRequest where
  URL : GoString
  Method : GoString
  Headers : GoString
  deriving DecidableEq, Repr

/-- The pause notification `fetch.RequestPausedReply`. -/
structure RequestPausedReply where
  RequestID : GoString
  Request : PausedRequest
  ResourceType : GoString
  deriving DecidableEq, Repr

/-- The type `fetch.HeaderEntry`. -/
structure HeaderEntry where
  Name : GoString
  Value : GoString
  deriving DecidableEq, Repr

/-- The type `fetch.FulfillRequestArgs`; `Body` is optional. -/
structure FulfillRequestArgs where
  RequestID : GoString
  ResponseCode : Int
  ResponseHeaders : List HeaderEntry
  Body : Option GoString
  deriving DecidableEq, Repr

/-- Go `fetch.NewFulfillRequestArgs`. -/
def NewFulfillRequestArgs (requestID : GoString) (responseCode : Int) : FulfillRequestArgs :=
  { RequestID := requestID, ResponseCode := responseCode, ResponseHeaders := [], Body := none }

/-- Method `SetResponseHeaders`. -/
def FulfillRequestArgs.SetResponseHeaders (a : FulfillRequestArgs)
    (responseHeaders : List HeaderEntry) : FulfillRequestArgs :=
  { a with ResponseHeaders := responseHeaders }

/-- Method `SetBody`. -/
def FulfillRequestArgs.SetBody (a : FulfillRequestArgs) (body : GoString) :
    FulfillRequestArgs :=
  { a with Body := some body }

/-- The loop `for key, value := range headers { subRequest.Header.Set(key, value) }`
over the decoded header map, visited in the order of the list. -/
def rangeSet : List (GoString × GoString) → Header → Header
  | [], header => header
  | (key, value) :: rest, header => rangeSet rest (header.Set key value)

/-- The inner loop `for _, headerValue := range headerValues` that appends one
entry per value. -/
def rangeValues (headerName : GoString) : List GoString → List HeaderEntry → List HeaderEntry
  | [], headers => headers
  | headerValue :: rest, headers =>
    rangeValues headerName rest (headers ++ [{ Name := headerName, Value := headerValue }])

/-- The outer loop `for headerName, headerValues := range res.Header()`. -/
def rangeHeader : Header → List HeaderEntry → List HeaderEntry
  | [], headers => headers
  | (headerName, headerValues) :: rest, headers =>
    rangeHeader rest (rangeValues headerName headerValues headers)

/-- The calls one iteration of the relay makes on its collaborators. -/
inductive RelayEvent (U : Type) where
  /-- The call `server.ServeHTTP(subResponse, subRequest)`. -/
  | serverServeHTTP (subRequest : Request U)
  /-- The call `client.Fetch.FulfillRequest(ctx, args)`. -/
  | FulfillRequest (args : FulfillRequestArgs)
  deriving DecidableEq, Repr

/-- One iteration of the relay: the calls made, in order, and the value it
panicked with, if it did. -/
structure RelayRun (U : Type) where
  trace : List (RelayEvent U)
  panic : Option GoError

/-- The body of the relay loop for one received pause notification.
`unmarshalHeaders` is `json.Unmarshal` into a `map[string]string`,
`fulfillRequest` the answer of the browser to the fulfillment. -/
def relay {U : Type} (net : NetURL U)
    (unmarshalHeaders : GoString → Except GoError (List (GoString × GoString)))
    (server : Server U) (fulfillRequest : FulfillRequestArgs → Option GoError)
    (recorder : ResponseRecorder) (navigateUrl : GoString) (paused : RequestPausedReply) :
    RelayRun U :=
  let resolved : Except GoError (List (RelayEvent U) × response) :=
    if paused.ResourceType = ResourceTypeDocument ∧ paused.Request.URL = navigateUrl then
      .ok ([], recorder.toResponse)
    else
      match NewRequestWithContext net paused.Request.Method paused.Request.URL with
      | .error err => .error err
      | .ok subRequest =>
        match unmarshalHeaders paused.Request.Headers with
        | .error err => .error err
        | .ok headers =>
          let subRequest := { subRequest with Header := rangeSet headers subRequest.Header }
          let subResponse : subResponseWriter := { statusCode := 0, header := [], buf := [] }
          let subResponse := subResponse.serve (server subRequest)
          .ok ([RelayEvent.serverServeHTTP subRequest], subResponse.toResponse)
  match resolved with
  | .error err => { trace := [], panic := some err }
  | .ok (trace, res) =>
    let args := NewFulfillRequestArgs paused.RequestID res.Status
    let headers := rangeHeader res.Header []
    let args := args.SetResponseHeaders headers
    let args := args.SetBody (base64.EncodeToString res.Buffer)
    { trace := trace ++ [RelayEvent.FulfillRequest args], panic := fulfillRequest args }

/-- The relay goroutine and what it meets: the decoder of header objects, the
origin server, the answers of the browser to the fulfillments, and `pauses`,
the pause notifications that the loop receives, in order, while the handler
waits for the reply to its `Navigate` call. -/
structure Relay (U : Type) where
  unmarshalHeaders : GoString → Except GoError (List (GoString × GoString))
  server : Server U
  fulfillRequest : FulfillRequestArgs → Option GoError
  pauses : List RequestPausedReply

/-- The relay loop `for { ... }` over the received pause notifications: one
iteration after the other, until one panics. -/
def relayLoop {U : Type} (net : NetURL U) (g : Relay U) (recorder : ResponseRecorder)
    (navigateUrl : GoString) : List RequestPausedReply → RelayRun U
  | [] => { trace := [], panic := none }
  | paused :: rest =>
    let run := relay net g.unmarshalHeaders g.server g.fulfillRequest recorder navigateUrl paused
    match run.panic with
    | some _ => run
    | none =>
      let more := relayLoop net g recorder navigateUrl rest
      { trace := run.trace ++ more.trace, panic := more.panic }

/-! ### The handler -/

/-- The type `target.BrowserContextID`. -/
abbrev BrowserContextID := GoString

/-- The type `target.ID`. -/
abbrev TargetID := GoString

/-- The field of `page.NavigateReply` that the handler reads. -/
structure NavigateReply where
  ErrorText : Option GoString
  deriving DecidableEq, Repr

/-- The fields of `runtime.EvaluateReply` that the handler reads: the
exception details, if any, and the raw JSON of `Result.Value`. -/
structure EvaluateReply where
  ExceptionDetails : Option GoString
  ResultValue : GoString
  deriving DecidableEq, Repr

/-- The field of `target.CloseTargetReply` that the handler reads. -/
structure CloseTargetReply where
  Success : Bool
  deriving DecidableEq, Repr

/-- What the browser automation endpoint and the recorder answer in one run of
the handler, one field per call site, in the order of the source: an error or
the reply. Each site is reached at most once in a run. -/
structure Answers where
  Version : Except GoError GoString
  DialContext : Option GoError
  NewManager : Option GoError
  CreateBrowserContext : Except GoError BrowserContextID
  CreateTarget : Except GoError TargetID
  Dial : Option GoError
  PageEnable : Option GoError
  LoadEventFired : Option GoError
  FetchEnable : Option GoError
  RequestPaused : Option GoError
  Navigate : Except GoError NavigateReply
  Evaluate : Except GoError EvaluateReply
  /-- Go `json.Unmarshal` of a raw value into a string. -/
  Unmarshal : GoString → Except GoError GoString
  CloseTarget : Except GoError CloseTargetReply
  DisposeBrowserContext : Option GoError
  WriteResponse : Option GoError

/-- The calls `Chrome.ServeHTTP` makes on its collaborators. -/
inductive Event (U : Type) where
  /-- The call `next.ServeHTTP(recorder, r)`. -/
  | nextServeHTTP (r : Request U)
  /-- The call `devtool.New(c.URL).Version(ctx)`. -/
  | Version (url : GoString)
  /-- The call `rpcc.DialContext(ctx, version.WebSocketDebuggerURL)`. -/
  | DialContext (webSocketDebuggerURL : GoString)
  /-- The call `session.NewManager(browserClient)`. -/
  | NewManager
  | CreateBrowserContext
  /-- The call `CreateTarget` for the URL and the browser context. -/
  | CreateTarget (url : GoString) (browserContextID : BrowserContextID)
  /-- The call `sessionManager.Dial(ctx, targetReply.TargetID)`. -/
  | Dial (targetID : TargetID)
  | PageEnable
  | LoadEventFired
  | FetchEnable
  | RequestPaused
  /-- The statement `go func() { ... }()` that starts the relay loop. -/
  | goRelay (navigateUrl : GoString)
  | Navigate (url : GoString)
  /-- The receive `<-loadEventFiredClient.Ready()`. -/
  | awaitLoadEventFired
  | Evaluate (expression : GoString)
  | CloseTarget (targetID : TargetID)
  | DisposeBrowserContext (browserContextID : BrowserContextID)
  /-- The call `recorder.WriteResponse()` with the recorder as it is then. -/
  | WriteResponse (res : response)
  /-- The deferred `targetConn.Close()`. -/
  | targetConnClose
  /-- The deferred `sessionManager.Close()`. -/
  | sessionManagerClose
  /-- The deferred `rpccConn.Close()`. -/
  | rpccConnClose
  deriving DecidableEq, Repr

/-- One run of `ServeHTTP`: the calls the handler made, in order, the calls
the relay goroutine made, the recorder at the end, the returned error (`none`
is nil), and the value of the panic of the relay goroutine, if it panicked: a
panic in a goroutine ends the program, so the handler does not return then and
`result` is `none`. -/
structure Run (U : Type) where
  trace : List (Event U)
  relay : List (RelayEvent U)
  recorder : ResponseRecorder
  result : Option GoError
  panic : Option GoError

/-- A return statement. -/
def Run.ret {U : Type} (recorder : ResponseRecorder) (result : Option GoError) : Run U :=
  { trace := [], relay := [], recorder := recorder, result := result, panic := none }

/-- The relay goroutine at work while the handler waits: when it panics the
run ends there, without a return of the handler; otherwise the handler goes
on. -/
def Run.go {U : Type} (relayRun : RelayRun U) (recorder : ResponseRecorder) (rest : Run U) :
    Run U :=
  match relayRun.panic with
  | some value =>
    { trace := [], relay := relayRun.trace, recorder := recorder, result := none,
      panic := some value }
  | none => { rest with relay := relayRun.trace }

/-- A call made before the rest of the run. -/
def Run.call {U : Type} (ev : Event U) (rest : Run U) : Run U :=
  { rest with trace := ev :: rest.trace }

/-- A `defer` statement: the call is made when the rest of the run returns,
and not made when the program ended in a panic of the relay goroutine. -/
def Run.defer {U : Type} (ev : Event U) (rest : Run U) : Run U :=
  if rest.panic.isSome then rest else { rest with trace := rest.trace ++ [ev] }

/-- The method `Chrome.ServeHTTP`. `header` is the header map of the client's
writer `w` and `buf` the content of the buffer taken from the pool. The debug
prints to standard output and the return of the buffer to the pool are left
out. The statement `go func() { ... }()` is the event `goRelay`; the goroutine
it starts handles the pauses of `g` while the handler waits in `Navigate`. -/
def ServeHTTP {U : Type} (net : NetURL U) (a : Answers) (g : Relay U) (c : Chrome)
    (w : ResponseWriter)
    (header : Header) (buf : GoString) (r : Request U) (next : NextHandler U) : Run U :=
  let recorder := NewResponseRecorder w header buf (shouldBuffer c)
  let (recorder, err) := next recorder r
  Run.call (.nextServeHTTP r) <|
  match err with
  | some err => Run.ret recorder (some err)
  | none =>
  if !recorder.Buffered then Run.ret recorder none else
  Run.call (.Version c.URL) <|
  match a.Version with
  | .error err => Run.ret recorder (some err)
  | .ok webSocketDebuggerURL =>
  Run.call (.DialContext webSocketDebuggerURL) <|
  match a.DialContext with
  | some err => Run.ret recorder (some err)
  | none =>
  Run.defer .rpccConnClose <|
  Run.call .NewManager <|
  match a.NewManager with
  | some err => Run.ret recorder (some err)
  | none =>
  Run.defer .sessionManagerClose <|
  Run.call .CreateBrowserContext <|
  match a.CreateBrowserContext with
  | .error err => Run.ret recorder (some err)
  | .ok browserContextID =>
  Run.call (.CreateTarget (ascii "about:blank") browserContextID) <|
  match a.CreateTarget with
  | .error err => Run.ret recorder (some err)
  | .ok targetID =>
  Run.call (.Dial targetID) <|
  match a.Dial with
  | some err => Run.ret recorder (some err)
  | none =>
  Run.defer .targetConnClose <|
  Run.call .PageEnable <|
  match a.PageEnable with
  | some err => Run.ret recorder (some err)
  | none =>
  Run.call .LoadEventFired <|
  match a.LoadEventFired with
  | some err => Run.ret recorder (some err)
  | none =>
  Run.call .FetchEnable <|
  match a.FetchEnable with
  | some err => Run.ret recorder (some err)
  | none =>
  Run.call .RequestPaused <|
  match a.RequestPaused with
  | some err => Run.ret recorder (some err)
  | none =>
  let navigateUrl := ascii "http://" ++ r.Host ++ net.RequestURI r.URL
  Run.call (.goRelay navigateUrl) <|
  Run.call (.Navigate navigateUrl) <|
  Run.go (relayLoop net g recorder navigateUrl g.pauses) recorder <|
  match a.Navigate with
  | .error err => Run.ret recorder (some err)
  | .ok navigateReply =>
  match navigateReply.ErrorText with
  | some errorText => Run.ret recorder (some (.errorString errorText))
  | none =>
  Run.call .awaitLoadEventFired <|
  Run.call (.Evaluate (ascii "document.documentElement.outerHTML;")) <|
  match a.Evaluate with
  | .error err => Run.ret recorder (some err)
  | .ok evalReply =>
  match evalReply.ExceptionDetails with
  | some details => Run.ret recorder (some (.exceptionDetails details))
  | none =>
  match a.Unmarshal evalReply.ResultValue with
  | .error err => Run.ret recorder (some err)
  | .ok outerHTML =>
  Run.call (.CloseTarget targetID) <|
  match a.CloseTarget with
  | .error err => Run.ret recorder (some err)
  | .ok closeTargetReply =>
  if !closeTargetReply.Success then
    Run.ret recorder (some (.errorString (ascii "close target failed: " ++ targetID)))
  else
  Run.call (.DisposeBrowserContext browserContextID) <|
  match a.DisposeBrowserContext with
  | some err => Run.ret recorder (some err)
  | none =>
  let recorder := { recorder with header := recorder.header.Del (ascii "Content-Length") }
  let recorder := { recorder with header := recorder.header.Del (ascii "Accept-Ranges") }
  let recorder := { recorder with header := recorder.header.Del (ascii "Etag") }
  let recorder := { recorder with header := recorder.header.Del (ascii "Last-Modified") }
  let recorder := { recorder with buf := [] }
  let recorder := { recorder with buf := recorder.buf ++ ascii "<!doctype html>\n" }
  let recorder := { recorder with buf := recorder.buf ++ outerHTML }
  Run.call (.WriteResponse recorder.toResponse) <|
  Run.ret recorder a.WriteResponse

end chrome

/-! ## Notions used to state the properties -/

/-- The next handler was called: the event is a `nextServeHTTP`. -/
def auth_request.Event.isNext {U : Type} : auth_request.Event U → Bool
  | .nextServeHTTP _ _ => true
  | _ => false

/-- The argument of the last `WriteHeader` call among the calls `cs`, if there
is one. -/
def lastWriteHeader : List WriterCall → Option Int
  | [] => none
  | .writeHeader statusCode :: rest => (lastWriteHeader rest).orElse (fun _ => some statusCode)
  | _ :: rest => lastWriteHeader rest

/-- No call among `cs` is a `WriteHeader`. -/
def noWriteHeader : List WriterCall → Bool
  | [] => true
  | .writeHeader _ :: _ => false
  | _ :: rest => noWriteHeader rest

/-- The response was written to the client: the event is a `WriteResponse`. -/
def chrome.Event.isWriteResponse {U : Type} : chrome.Event U → Bool
  | .WriteResponse _ => true
  | _ => false

/-- Some step before or during the render phase fails: an automation call
answers with an error, the navigation reply carries an error text, the
evaluation reports exception details, the result does not decode, the target
close reports no success, or the disposal of the context fails. -/
def chrome.Answers.fails (a : chrome.Answers) : Bool :=
  (match a.Version with | .error _ => true | .ok _ => false) ||
  a.DialContext.isSome || a.NewManager.isSome ||
  (match a.CreateBrowserContext with | .error _ => true | .ok _ => false) ||
  (match a.CreateTarget with | .error _ => true | .ok _ => false) ||
  a.Dial.isSome || a.PageEnable.isSome || a.LoadEventFired.isSome ||
  a.FetchEnable.isSome || a.RequestPaused.isSome ||
  (match a.Navigate with
    | .error _ => true
    | .ok navigateReply => navigateReply.ErrorText.isSome) ||
  (match a.Evaluate with
    | .error _ => true
    | .ok evalReply => evalReply.ExceptionDetails.isSome ||
      (match a.Unmarshal evalReply.ResultValue with | .error _ => true | .ok _ => false)) ||
  (match a.CloseTarget with
    | .error _ => true
    | .ok closeTargetReply => !closeTargetReply.Success) ||
  a.DisposeBrowserContext.isSome

/-! ## Sample inputs -/

/-- A `net/url` in which a URL is its text: every text parses, a reference
resolves to itself, and the host is left empty. -/
def sampleNet : NetURL GoString :=
  { Parse := fun s => .ok s, urlString := fun u => u, RequestURI := fun u => u,
    ResolveReference := fun _ ref => ref, removeEmptyPort := fun u => u, Host := fun _ => [] }

/-- A POST request for `/` with a form body and three header fields. -/
def sampleRequest : Request GoString :=
  { Method := ascii "POST", URL := ascii "/", Host := ascii "localhost:9080", Body := some (ascii "a=b"),
    Header := [(ascii "Content-Type", [ascii "application/x-www-form-urlencoded"]),
               (ascii "Cookie", [ascii "a=1", ascii "b=2"]),
               (ascii "Content-Length", [ascii "3"])] }

/-- The handler configured with `uri /auth`. -/
def sampleAuthRequest : auth_request.AuthRequest GoString :=
  { URI := ascii "/auth", parsedURI := ascii "/auth" }

/-- An origin server that answers every request with the given status and the
body `ok`. -/
def respond (statusCode : Int) : Server GoString :=
  fun _ => [.writeHeader statusCode, .write (ascii "ok")]

/-- An origin server that writes two body chunks and never calls
`WriteHeader`. -/
def respondBodyOnly : Server GoString :=
  fun _ => [.write (ascii "o"), .write (ascii "k")]

/-- A next handler that returns nil. -/
def sampleNext : auth_request.NextHandler GoString := fun _ _ => none

/-- A buffered HTML response: status 200, three header fields, one of them
with two values, and a three-byte body. -/
def sampleRecorder : chrome.ResponseRecorder :=
  { w := 7, shouldBuffer := chrome.shouldBuffer { URL := [], MIMETypes := [ascii "text/html"] },
    statusCode := 200,
    header := [(ascii "Content-Type", [ascii "text/html"]),
               (ascii "Set-Cookie", [ascii "a=1", ascii "b=2"]),
               (ascii "Content-Length", [ascii "3"])],
    buf := ascii "<p>", stream := false }

/-- The pause of the navigation to `http://localhost:9080/`. -/
def sampleNavigation : chrome.RequestPausedReply :=
  { RequestID := ascii "interception-1", ResourceType := chrome.ResourceTypeDocument,
    Request := { URL := ascii "http://localhost:9080/", Method := ascii "GET",
                 Headers := ascii "\x7b\x7d" } }

/-- A browser that accepts every fulfillment. -/
def sampleFulfill : chrome.FulfillRequestArgs → Option GoError := fun _ => none

/-- A decoder of header objects that knows the two objects of the samples. -/
def sampleUnmarshalHeaders : GoString → Except GoError (List (GoString × GoString)) :=
  fun raw =>
    if raw = ascii "\x7b\x7d" then .ok []
    else if raw = ascii "\x7b\"x-a\":\"1\",\"X-A\":\"2\"\x7d" then
      .ok [(ascii "x-a", ascii "1"), (ascii "X-A", ascii "2")]
    else if raw = ascii "\x7b\"accept\":\"*/*\",\"X-Requested-With\":\"XMLHttpRequest\"\x7d" then
      .ok [(ascii "accept", ascii "*/*"), (ascii "X-Requested-With", ascii "XMLHttpRequest")]
    else .error (.errorString (ascii "unexpected end of JSON input"))

/-- The pause of an XHR request for `/api` with two header fields. -/
def sampleSubresource : chrome.RequestPausedReply :=
  { RequestID := ascii "interception-2", ResourceType := ascii "XHR",
    Request := { URL := ascii "http://localhost:9080/api", Method := ascii "GET",
                 Headers := ascii
                   "\x7b\"accept\":\"*/*\",\"X-Requested-With\":\"XMLHttpRequest\"\x7d" } }

/-- A pause that reports the empty method and two header names that differ in
letter case only. -/
def sampleMixedCase : chrome.RequestPausedReply :=
  { RequestID := ascii "interception-3", ResourceType := ascii "Fetch",
    Request := { URL := ascii "http://localhost:9080/api", Method := [],
                 Headers := ascii "\x7b\"x-a\":\"1\",\"X-A\":\"2\"\x7d" } }

/-- The handler with the default MIME types. -/
def sampleChrome : chrome.Chrome :=
  { URL := ascii "http://localhost:9222", MIMETypes := [ascii "text/html"] }

/-- A next handler that leaves the recorder with the buffered HTML response of
`sampleRecorder` and returns nil. -/
def sampleChromeNext : chrome.NextHandler GoString :=
  fun rr _ => ({ sampleRecorder with w := rr.w, shouldBuffer := rr.shouldBuffer }, none)

/-- A decoder of JSON strings that knows the value of the sample. -/
def sampleUnmarshal : GoString → Except GoError GoString :=
  fun raw =>
    if raw = ascii "\"<html></html>\"" then .ok (ascii "<html></html>")
    else .error (.errorString (ascii "invalid character"))

/-- A relay that receives no pause. -/
def sampleRelay : chrome.Relay GoString :=
  { unmarshalHeaders := sampleUnmarshalHeaders, server := respond 200,
    fulfillRequest := sampleFulfill, pauses := [] }

/-- A relay that receives the pause of the navigation and whose fulfillment
the browser answers with an error. -/
def fulfillFails : chrome.Relay GoString :=
  { unmarshalHeaders := sampleUnmarshalHeaders, server := respond 200,
    fulfillRequest := fun _ => some (.errorString (ascii "rpcc: the connection is closing")),
    pauses := [sampleNavigation] }

/-- A browser in which every step succeeds. -/
def sampleAnswers : chrome.Answers :=
  { Version := .ok (ascii "ws://localhost:9222/devtools/browser/b"),
    DialContext := none, NewManager := none,
    CreateBrowserContext := .ok (ascii "context-1"),
    CreateTarget := .ok (ascii "target-1"),
    Dial := none, PageEnable := none, LoadEventFired := none, FetchEnable := none,
    RequestPaused := none,
    Navigate := .ok { ErrorText := none },
    Evaluate := .ok { ExceptionDetails := none, ResultValue := ascii "\"<html></html>\"" },
    Unmarshal := sampleUnmarshal,
    CloseTarget := .ok { Success := true },
    DisposeBrowserContext := none, WriteResponse := none }

/-- A browser in which `Page.Enable` answers with an error and every other
step succeeds. -/
def pageEnableFails : chrome.Answers :=
  { sampleAnswers with PageEnable := some (.errorString (ascii "rpcc: the connection is closing")) }

/-- A browser whose navigation reply carries an error text. -/
def navigationFails : chrome.Answers :=
  { sampleAnswers with Navigate := .ok { ErrorText := some (ascii "net::ERR_ABORTED") } }


/-! ## Helper lemmas -/

theorem hasPrefix_iff (s p : GoString) : hasPrefix s p = true ↔ ∃ t, p ++ t = s := by
  induction p generalizing s with
  | nil => cases s <;> simp [hasPrefix]
  | cons d p ih =>
    cases s with
    | nil => simp [hasPrefix]
    | cons c s =>
      simp only [hasPrefix, Bool.and_eq_true, beq_iff_eq, ih, List.cons_append, List.cons.injEq]
      constructor
      · rintro ⟨rfl, t, rfl⟩
        exact ⟨t, rfl, rfl⟩
      · rintro ⟨t, rfl, rfl⟩
        exact ⟨rfl, t, rfl⟩

theorem stringsContains_iff (s substr : GoString) :
    stringsContains s substr = true ↔ ∃ u t, u ++ substr ++ t = s := by
  induction s with
  | nil =>
    simp only [stringsContains, hasPrefix_iff]
    constructor
    · rintro ⟨t, h⟩
      exact ⟨[], t, by simpa using h⟩
    · rintro ⟨u, t, h⟩
      simp only [List.append_eq_nil] at h
      exact ⟨[], by simp [h.1.2, h.2]⟩
  | cons c s ih =>
    simp only [stringsContains, Bool.or_eq_true, hasPrefix_iff, ih]
    constructor
    · rintro (⟨t, h⟩ | ⟨u, t, h⟩)
      · exact ⟨[], t, by simpa using h⟩
      · exact ⟨c :: u, t, by simp [← h]⟩
    · rintro ⟨u, t, h⟩
      cases u with
      | nil => exact Or.inl ⟨t, by simpa using h⟩
      | cons d u =>
        simp only [List.cons_append, List.cons.injEq] at h
        exact Or.inr ⟨u, t, by simpa using h.2⟩

theorem rangeMIMETypes_iff (contentType : GoString) (l : List GoString) :
    chrome.rangeMIMETypes contentType l = true ↔
      ∃ m ∈ l, stringsContains contentType m = true := by
  induction l with
  | nil => simp [chrome.rangeMIMETypes]
  | cons m l ih =>
    by_cases h : stringsContains contentType m = true
    · simp [chrome.rangeMIMETypes, h]
    · simp [chrome.rangeMIMETypes, h, ih]

theorem Header.index_delete (h : Header) (key k : GoString) :
    (h.delete key).index k = if k = key then none else h.index k := by
  induction h with
  | nil => simp [Header.delete, Header.index]
  | cons e h ih =>
    obtain ⟨a, vs⟩ := e
    simp only [Header.delete, Header.index] at ih ⊢
    by_cases ha : a = key
    · subst ha
      by_cases hk : k = a
      · subst hk
        simpa [List.filter_cons] using ih
      · have hk2 : (k == a) = false := by simpa using hk
        simpa [List.filter_cons, List.lookup_cons, hk, hk2] using ih
    · have ha2 : (a != key) = true := by simpa using ha
      rw [List.filter_cons, if_pos ha2]
      by_cases hk : k = a
      · subst hk
        simp [List.lookup_cons, ha]
      · have hk2 : (k == a) = false := by simpa using hk
        simpa [List.lookup_cons, hk2] using ih

theorem Header.delete_delete_eq_filter (h : Header) (k1 k2 : GoString) :
    (h.delete k1).delete k2 = h.filter (fun e => e.1 != k1 && e.1 != k2) := by
  simp [Header.delete, List.filter_filter, Bool.and_comm]

theorem newRequest_GET {U : Type} (net : NetURL U) (url : GoString) (u : U)
    (h : net.Parse url = .ok u) :
    NewRequestWithContext net (ascii "GET") url =
      .ok { Method := ascii "GET", URL := net.removeEmptyPort u, Header := [], Body := none,
            Host := net.Host (net.removeEmptyPort u) } := by
  have h1 : (ascii "GET" = []) = False := by simp; decide
  have h2 : validMethod (ascii "GET") = true := by decide
  simp [NewRequestWithContext, h1, h2, h]

theorem heap_sub (h : Header) (k1 k2 : GoString) :
    (((Heap.Clone [h] 0).1.Del (Heap.Clone [h] 0).2 k1).Del (Heap.Clone [h] 0).2 k2).read
        (Heap.Clone [h] 0).2 = (h.Clone.Del k1).Del k2 := rfl

theorem heap_orig (h : Header) (k1 k2 : GoString) :
    (((Heap.Clone [h] 0).1.Del (Heap.Clone [h] 0).2 k1).Del (Heap.Clone [h] 0).2 k2).read 0 =
      h := rfl

theorem auth_serve_statusCode (cs : List WriterCall) (w : auth_request.subResponseWriter) :
    (w.serve cs).statusCode = (lastWriteHeader cs).getD w.statusCode := by
  induction cs generalizing w with
  | nil => simp [auth_request.subResponseWriter.serve, lastWriteHeader]
  | cons c cs ih =>
    simp only [auth_request.subResponseWriter.serve, List.foldl_cons] at ih ⊢
    rw [ih]
    cases c with
    | header f => simp [lastWriteHeader, auth_request.subResponseWriter.call]
    | write data =>
      simp [lastWriteHeader, auth_request.subResponseWriter.call,
        auth_request.subResponseWriter.Write]
    | writeHeader statusCode =>
      cases hl : lastWriteHeader cs <;>
        simp [lastWriteHeader, auth_request.subResponseWriter.call,
          auth_request.subResponseWriter.WriteHeader, hl, Option.orElse]

theorem lastWriteHeader_of_noWriteHeader (cs : List WriterCall) (h : noWriteHeader cs = true) :
    lastWriteHeader cs = none := by
  induction cs with
  | nil => rfl
  | cons c cs ih =>
    cases c with
    | header f => simpa [lastWriteHeader] using ih (by simpa [noWriteHeader] using h)
    | write data => simpa [lastWriteHeader] using ih (by simpa [noWriteHeader] using h)
    | writeHeader statusCode => simp [noWriteHeader] at h

theorem base64.decodeChar_encode_fin : ∀ i : Fin 64, base64.decodeChar (base64.encode i.val) = some i.val ∧ base64.encode i.val ≠ base64.StdPadding := by
  decide

theorem base64.decodeChar_encode (i : Nat) (h : i < 64) : base64.decodeChar (base64.encode i) = some i :=
  (base64.decodeChar_encode_fin ⟨i, h⟩).1

theorem base64.encode_ne_pad (i : Nat) (h : i < 64) : base64.encode i ≠ base64.StdPadding :=
  (base64.decodeChar_encode_fin ⟨i, h⟩).2

theorem ofNat_val (n : Nat) (a : Byte) (h : n = a.val) : (Fin.ofNat n : Byte) = a := by
  subst h
  apply Fin.ext
  simp [Fin.ofNat, Nat.mod_eq_of_lt a.isLt]

theorem base64.DecodeString_EncodeToString (bs : GoString) :
    base64.DecodeString (base64.EncodeToString bs) = some bs := by
  induction bs using base64.EncodeToString.induct with
  | case1 => rfl
  | case2 a =>
    have ha := a.isLt
    simp only [base64.EncodeToString, base64.DecodeString]
    rw [base64.decodeChar_encode _ (Nat.mod_lt _ (by norm_num)), base64.decodeChar_encode _ (Nat.mod_lt _ (by norm_num))]
    simp only [and_self, if_true]
    congr 1
    simp only [List.cons.injEq, and_true]
    apply ofNat_val
    omega
  | case3 a b =>
    have ha := a.isLt
    have hb := b.isLt
    simp only [base64.EncodeToString, base64.DecodeString]
    rw [if_pos (by simp), if_neg (base64.encode_ne_pad _ (Nat.mod_lt _ (by norm_num)))]
    rw [base64.decodeChar_encode _ (Nat.mod_lt _ (by norm_num)), base64.decodeChar_encode _ (Nat.mod_lt _ (by norm_num)),
      base64.decodeChar_encode _ (Nat.mod_lt _ (by norm_num))]
    simp only [Option.some.injEq, List.cons.injEq, and_true]
    exact ⟨ofNat_val _ _ (by omega), ofNat_val _ _ (by omega)⟩
  | case4 a b c rest ih =>
    have ha := a.isLt
    have hb := b.isLt
    have hc := c.isLt
    simp only [base64.EncodeToString, base64.DecodeString]
    rw [if_neg (fun h => base64.encode_ne_pad _ (Nat.mod_lt _ (by norm_num)) h.2)]
    rw [base64.decodeChar_encode _ (Nat.mod_lt _ (by norm_num)), base64.decodeChar_encode _ (Nat.mod_lt _ (by norm_num)),
      base64.decodeChar_encode _ (Nat.mod_lt _ (by norm_num)), base64.decodeChar_encode _ (Nat.mod_lt _ (by norm_num)), ih]
    simp only [Option.some.injEq, List.cons.injEq, and_true]
    exact ⟨ofNat_val _ _ (by omega), ofNat_val _ _ (by omega), ofNat_val _ _ (by omega)⟩
theorem rangeValues_eq (name : GoString) (vs : List GoString) (acc : List chrome.HeaderEntry) :
    chrome.rangeValues name vs acc = acc ++ vs.map (fun v => ⟨name, v⟩) := by
  induction vs generalizing acc with
  | nil => simp [chrome.rangeValues]
  | cons v vs ih => simp [chrome.rangeValues, ih]

theorem rangeHeader_eq (h : Header) (acc : List chrome.HeaderEntry) :
    chrome.rangeHeader h acc =
      acc ++ h.flatMap (fun e => e.2.map (fun v => (⟨e.1, v⟩ : chrome.HeaderEntry))) := by
  induction h generalizing acc with
  | nil => simp [chrome.rangeHeader]
  | cons e h ih =>
    obtain ⟨name, vs⟩ := e
    simp [chrome.rangeHeader, ih, rangeValues_eq]

theorem mem_rangeHeader (h : Header) (k v : GoString) :
    (⟨k, v⟩ : chrome.HeaderEntry) ∈ chrome.rangeHeader h [] ↔ ∃ vs, (k, vs) ∈ h ∧ v ∈ vs := by
  simp only [rangeHeader_eq, List.nil_append, List.mem_flatMap, List.mem_map,
    chrome.HeaderEntry.mk.injEq]
  constructor
  · rintro ⟨⟨a, vs⟩, hmem, w, hw, rfl, rfl⟩
    exact ⟨vs, hmem, hw⟩
  · rintro ⟨vs, hmem, hv⟩
    exact ⟨(k, vs), hmem, v, hv, rfl, rfl⟩

theorem Header.index_eq_none (h : Header) (k : GoString) (hk : k ∉ h.map Prod.fst) :
    h.index k = none := by
  induction h with
  | nil => rfl
  | cons e h ih =>
    obtain ⟨a, vs⟩ := e
    simp only [List.map_cons, List.mem_cons, not_or] at hk
    have hka : (k == a) = false := by simpa using hk.1
    simpa [Header.index, List.lookup_cons, hka] using ih hk.2

theorem filter_rangeHeader (h : Header) (hwf : h.WellFormed) (k : GoString) :
    ((chrome.rangeHeader h []).filter (fun e => e.Name == k)).map (fun e => e.Value) =
      (h.index k).getD [] := by
  rw [rangeHeader_eq, List.nil_append]
  induction h with
  | nil => rfl
  | cons e h ih =>
    obtain ⟨a, vs⟩ := e
    have hnd : a ∉ h.map Prod.fst ∧ (h.map Prod.fst).Nodup := by
      simpa [Header.WellFormed] using hwf
    have ih2 := ih hnd.2
    simp only [List.flatMap_cons, List.filter_append, List.map_append, ih2]
    by_cases hka : a = k
    · subst hka
      rw [Header.index_eq_none h a hnd.1]
      simp [Header.index, List.filter_map, Function.comp_def]
    · have h1 : (k == a) = false := by simpa using fun h => hka h.symm
      simp [Header.index, List.lookup_cons, h1, List.filter_map, Function.comp_def, hka]

theorem length_rangeHeader (h : Header) :
    (chrome.rangeHeader h []).length = (h.map (fun e => e.2.length)).sum := by
  rw [rangeHeader_eq, List.nil_append]
  induction h with
  | nil => rfl
  | cons e h ih => simp [List.flatMap_cons, ih]

theorem Header.index_assign (h : Header) (key k : GoString) (vs : List GoString) :
    (h.assign key vs).index k = if k = key then some vs else h.index k := by
  unfold Header.assign
  split_ifs with hany hk hk
  · subst hk
    simp only [Header.index]
    induction h with
    | nil => simp at hany
    | cons e h ih =>
      obtain ⟨a, ws⟩ := e
      by_cases ha : a = k
      · subst ha
        simp [List.lookup_cons]
      · have hka : (k == a) = false := by simpa using fun h => ha h.symm
        have hany2 : (h.any fun e => e.1 == k) = true := by
          simpa [List.any_cons, ha] using hany
        simpa [List.lookup_cons, ha, hka] using ih hany2
  · simp only [Header.index]
    clear hany
    induction h with
    | nil => rfl
    | cons e h ih =>
      obtain ⟨a, ws⟩ := e
      by_cases ha : a = key
      · subst ha
        have hka : (k == a) = false := by simpa using hk
        simpa [List.lookup_cons, hka] using ih
      · by_cases hka : k = a
        · subst hka
          simp [List.lookup_cons, ha]
        · have hka2 : (k == a) = false := by simpa using hka
          simpa [List.lookup_cons, ha, hka2] using ih
  · subst hk
    simp only [Header.index]
    induction h with
    | nil => simp [List.lookup_cons]
    | cons e h ih =>
      obtain ⟨a, ws⟩ := e
      have hany2 : ¬ (a = k) ∧ ¬ (h.any fun e => e.1 == k) = true := by
        simpa [List.any_cons, not_or] using hany
      have hka : (k == a) = false := by simpa using fun h => hany2.1 h.symm
      simpa [List.lookup_cons, hka] using ih hany2.2
  · simp only [Header.index]
    clear hany
    induction h with
    | nil =>
      have hkk : (k == key) = false := by simpa using hk
      simp [List.lookup_cons, hkk]
    | cons e h ih =>
      obtain ⟨a, ws⟩ := e
      by_cases hka : k = a
      · subst hka
        simp [List.lookup_cons]
      · have hka2 : (k == a) = false := by simpa using hka
        simpa [List.lookup_cons, hka2] using ih

theorem rangeSet_index (headers : List (GoString × GoString)) (h : Header) (k : GoString) :
    (chrome.rangeSet headers h).index k =
      match headers.reverse.find? (fun e => CanonicalMIMEHeaderKey e.1 == k) with
      | some e => some [e.2]
      | none => h.index k := by
  induction headers generalizing h with
  | nil => simp [chrome.rangeSet]
  | cons e headers ih =>
    obtain ⟨key, value⟩ := e
    simp only [chrome.rangeSet, ih, List.reverse_cons, List.find?_append]
    cases hf : List.find? (fun e => CanonicalMIMEHeaderKey e.1 == k) headers.reverse with
    | some e => simp
    | none =>
      simp only [Option.none_or, Header.Set, Header.index_assign, List.find?_cons,
        List.find?_nil]
      by_cases hk : k = CanonicalMIMEHeaderKey key
      · subst hk
        simp
      · have hk2 : (CanonicalMIMEHeaderKey key == k) = false := by
          simpa using fun h => hk h.symm
        simp [hk, hk2]

theorem ServeHTTP_navigateUrl {U : Type} (net : NetURL U) (a : chrome.Answers)
    (g : chrome.Relay U) (c : chrome.Chrome) (w : ResponseWriter) (header : Header)
    (buf : GoString) (r : Request U) (next : chrome.NextHandler U) (navigateUrl : GoString) :
    chrome.Event.goRelay navigateUrl ∈ (chrome.ServeHTTP net a g c w header buf r next).trace ∨
      chrome.Event.Navigate navigateUrl ∈
        (chrome.ServeHTTP net a g c w header buf r next).trace →
    navigateUrl = ascii "http://" ++ r.Host ++ net.RequestURI r.URL := by
  unfold chrome.ServeHTTP
  rcases hn : next (chrome.NewResponseRecorder w header buf (chrome.shouldBuffer c)) r with
    ⟨rec, err⟩
  simp only []
  cases hp : (chrome.relayLoop net g rec
      (ascii "http://" ++ r.Host ++ net.RequestURI r.URL) g.pauses).panic <;>
  · repeat' split
    all_goals simp_all [chrome.Run.call, chrome.Run.ret, chrome.Run.defer, chrome.Run.go]

theorem ServeHTTP_relay {U : Type} (net : NetURL U) (a : chrome.Answers)
    (g : chrome.Relay U) (c : chrome.Chrome) (w : ResponseWriter) (header : Header)
    (buf : GoString) (r : Request U) (next : chrome.NextHandler U) :
    (chrome.ServeHTTP net a g c w header buf r next).relay = [] ∨
    (chrome.ServeHTTP net a g c w header buf r next).relay =
      (chrome.relayLoop net g
        (next (chrome.NewResponseRecorder w header buf (chrome.shouldBuffer c)) r).1
        (ascii "http://" ++ r.Host ++ net.RequestURI r.URL) g.pauses).trace := by
  unfold chrome.ServeHTTP
  rcases hn : next (chrome.NewResponseRecorder w header buf (chrome.shouldBuffer c)) r with
    ⟨rec, err⟩
  simp only []
  cases hp : (chrome.relayLoop net g rec
      (ascii "http://" ++ r.Host ++ net.RequestURI r.URL) g.pauses).panic <;>
  · repeat' split
    all_goals simp_all [chrome.Run.call, chrome.Run.ret, chrome.Run.defer, chrome.Run.go]

/-! ## The claims -/

/-- C1. The buffering predicate that `Chrome.ServeHTTP` hands to the response
recorder is true exactly when some entry of `MIMETypes` occurs as a contiguous
run of bytes in the value `header.Get("Content-Type")`, whatever the status;
with an empty list it is false for every header. -/
theorem C1_shouldBuffer_iff_substring (c : chrome.Chrome) (status : Int) (header : Header) :
    (chrome.shouldBuffer c status header = true ↔
      ∃ m ∈ c.MIMETypes, ∃ u t, u ++ m ++ t = header.Get (ascii "Content-Type")) ∧
    (c.MIMETypes = [] → chrome.shouldBuffer c status header = false) := by
  constructor
  · simp only [chrome.shouldBuffer, rangeMIMETypes_iff, stringsContains_iff]
  · intro h
    simp [chrome.shouldBuffer, h, chrome.rangeMIMETypes]

/-- C2. When the sub-request can be built, the origin server is run on it and
the status `s` its writer recorded decides: 401 gives a handler error with
status 401, 403 a handler error with status 403, any other status outside
200..299 an error without status, and in these cases the next handler is not
called; a status in 200..299 makes the only call of the next handler, with the
original writer and request, and its result is returned. -/
theorem C2_status_decides {U : Type} (net : NetURL U) (server : Server U)
    (ar : auth_request.AuthRequest U) (w : ResponseWriter) (r : Request U)
    (next : auth_request.NextHandler U) (u : U)
    (hparse : net.Parse (net.urlString (net.ResolveReference r.URL ar.parsedURI)) = .ok u) :
    ∃ sub, (auth_request.ServeHTTP net server ar w r next).trace.head? =
        some (.serverServeHTTP sub) ∧
      ∀ s, (auth_request.subResponseWriter.serve ⟨0, []⟩ (server sub)).statusCode = s →
        (s = 401 →
          (auth_request.ServeHTTP net server ar w r next).result =
              some (.handlerError 401 (.errorString (ascii "unauthorized"))) ∧
            (auth_request.ServeHTTP net server ar w r next).trace.filter
              auth_request.Event.isNext = []) ∧
        (s = 403 →
          (auth_request.ServeHTTP net server ar w r next).result =
              some (.handlerError 403 (.errorString (ascii "forbidden"))) ∧
            (auth_request.ServeHTTP net server ar w r next).trace.filter
              auth_request.Event.isNext = []) ∧
        (s ≠ 401 → s ≠ 403 → s < 200 ∨ 300 ≤ s →
          (∃ msg, (auth_request.ServeHTTP net server ar w r next).result =
              some (.errorString msg)) ∧
            (auth_request.ServeHTTP net server ar w r next).trace.filter
              auth_request.Event.isNext = []) ∧
        (200 ≤ s → s < 300 →
          (auth_request.ServeHTTP net server ar w r next).result = next w r ∧
            (auth_request.ServeHTTP net server ar w r next).trace.filter
              auth_request.Event.isNext = [.nextServeHTTP w r]) := by
  refine ⟨Request.mk (ascii "GET") (net.removeEmptyPort u)
      ((r.Header.Clone.Del (ascii "Content-Type")).Del (ascii "Content-Length")) none
      (net.Host (net.removeEmptyPort u)), ?_, ?_⟩
  · simp only [auth_request.ServeHTTP, newRequest_GET net _ u hparse, heap_sub, heap_orig]
    split_ifs <;> rfl
  · intro s hs
    simp only [auth_request.ServeHTTP, newRequest_GET net _ u hparse, heap_sub, heap_orig, hs]
    refine ⟨?_, ?_, ?_, ?_⟩
    · intro h
      simp [h, auth_request.Event.isNext]
    · intro h
      simp [h, auth_request.Event.isNext]
    · intro h1 h2 h3
      have h4 : s < 200 ∨ s ≥ 300 := h3
      simp [h1, h2, h4, auth_request.Event.isNext]
    · intro h1 h2
      have h3 : s ≠ 401 := by omega
      have h4 : s ≠ 403 := by omega
      have h5 : ¬ (s < 200 ∨ s ≥ 300) := by omega
      simp [h3, h4, h5, auth_request.Event.isNext]

/-- C2 at two samples: the origin server answers 401 to the sub-request and
the handler returns the 401 handler error without a call of the next handler;
it answers 200 and the next handler is called once, its result returned. -/
theorem C2_status_decides_witness :
    ((auth_request.ServeHTTP sampleNet (respond 401) sampleAuthRequest 7 sampleRequest
        sampleNext).result = some (.handlerError 401 (.errorString (ascii "unauthorized"))) ∧
      (auth_request.ServeHTTP sampleNet (respond 401) sampleAuthRequest 7 sampleRequest
        sampleNext).trace.filter auth_request.Event.isNext = []) ∧
    ((auth_request.ServeHTTP sampleNet (respond 200) sampleAuthRequest 7 sampleRequest
        sampleNext).result = sampleNext 7 sampleRequest ∧
      (auth_request.ServeHTTP sampleNet (respond 200) sampleAuthRequest 7 sampleRequest
        sampleNext).trace.filter auth_request.Event.isNext =
        [.nextServeHTTP 7 sampleRequest]) := by
  obtain ⟨sub1, _, h1⟩ := C2_status_decides sampleNet (respond 401) sampleAuthRequest 7
    sampleRequest sampleNext (ascii "/auth") rfl
  obtain ⟨sub2, _, h2⟩ := C2_status_decides sampleNet (respond 200) sampleAuthRequest 7
    sampleRequest sampleNext (ascii "/auth") rfl
  exact ⟨(h1 401 rfl).1 rfl, (h2 200 rfl).2.2.2 (by decide) (by decide)⟩

/-- C9. When the sub-request can be built, the request handed to the origin
server has method GET, no body, and as header map the original one without the
keys `Content-Type` and `Content-Length`, every other key with its values in
their order; the two deletions act on the clone, so the map of the original
request keeps its content, and a call of the next handler gets the original
writer and the original request with that map. -/
theorem C9_subrequest_frame {U : Type} (net : NetURL U) (server : Server U)
    (ar : auth_request.AuthRequest U) (w : ResponseWriter) (r : Request U)
    (next : auth_request.NextHandler U) (u : U)
    (hparse : net.Parse (net.urlString (net.ResolveReference r.URL ar.parsedURI)) = .ok u) :
    ∃ sub, (auth_request.ServeHTTP net server ar w r next).trace.head? =
        some (.serverServeHTTP sub) ∧
      sub.Method = ascii "GET" ∧ sub.Body = none ∧
      sub.Header = r.Header.filter
        (fun e => e.1 != ascii "Content-Type" && e.1 != ascii "Content-Length") ∧
      (∀ k, sub.Header.index k =
        if k = ascii "Content-Type" ∨ k = ascii "Content-Length" then none
        else r.Header.index k) ∧
      ∀ w2 r2, auth_request.Event.nextServeHTTP w2 r2 ∈
          (auth_request.ServeHTTP net server ar w r next).trace →
        w2 = w ∧ r2 = r ∧ r2.Header = r.Header := by
  have hct : CanonicalMIMEHeaderKey (ascii "Content-Type") = ascii "Content-Type" := by decide
  have hcl : CanonicalMIMEHeaderKey (ascii "Content-Length") = ascii "Content-Length" := by
    decide
  refine ⟨Request.mk (ascii "GET") (net.removeEmptyPort u)
      ((r.Header.Clone.Del (ascii "Content-Type")).Del (ascii "Content-Length")) none
      (net.Host (net.removeEmptyPort u)), ?_, ?_, ?_, ?_, ?_, ?_⟩
  · simp only [auth_request.ServeHTTP, newRequest_GET net _ u hparse, heap_sub, heap_orig]
    split_ifs <;> rfl
  · rfl
  · rfl
  · simp only [Header.Del, Header.Clone, hct, hcl, Header.delete_delete_eq_filter]
  · intro k
    simp only [Header.Del, Header.Clone, hct, hcl, Header.index_delete]
    by_cases h1 : k = ascii "Content-Length"
    · simp [h1]
    · by_cases h2 : k = ascii "Content-Type"
      · simp [h2]
      · simp [h1, h2]
  · intro w2 r2
    simp only [auth_request.ServeHTTP, newRequest_GET net _ u hparse, heap_sub, heap_orig]
    split_ifs <;> simp
    intro h1 h2
    simp [h1, h2]

/-- C9 at a sample: a POST request with a form body and the header fields
`Content-Type`, `Cookie` and `Content-Length`; the sub-request is a GET
without body that keeps the two cookies only. -/
theorem C9_subrequest_frame_witness :
    ∃ sub, (auth_request.ServeHTTP sampleNet (respond 200) sampleAuthRequest 7 sampleRequest
          sampleNext).trace.head? = some (.serverServeHTTP sub) ∧
      sub.Method = ascii "GET" ∧ sub.Body = none ∧
      sub.Header = [(ascii "Cookie", [ascii "a=1", ascii "b=2"])] ∧
      (auth_request.ServeHTTP sampleNet (respond 200) sampleAuthRequest 7 sampleRequest
          sampleNext).trace.getLast? = some (.nextServeHTTP 7 sampleRequest) := by
  obtain ⟨sub, hhead, hm, hb, hh, _, _⟩ :=
    C9_subrequest_frame sampleNet (respond 200) sampleAuthRequest 7 sampleRequest sampleNext
      (ascii "/auth") rfl
  refine ⟨sub, hhead, hm, hb, ?_, ?_⟩
  · rw [hh]
    decide
  · decide

/-- C10. In the sub-response writer of `auth_request`, `Write` leaves the
writer as it is and reports `len(data)` and no error, and the status after any
run of the origin server on a fresh writer is the argument of the last
`WriteHeader` call, 0 without one. So when the sub-request can be built: a
server run without `WriteHeader` ends in the error for code 0 and no call of
the next handler, and two origin servers whose last `WriteHeader` argument on
the sub-request agree give the same run of `ServeHTTP`. -/
theorem C10_status_from_last_WriteHeader {U : Type} (net : NetURL U) (server : Server U)
    (ar : auth_request.AuthRequest U) (w : ResponseWriter) (r : Request U)
    (next : auth_request.NextHandler U) (u : U)
    (hparse : net.Parse (net.urlString (net.ResolveReference r.URL ar.parsedURI)) = .ok u) :
    (∀ (sw : auth_request.subResponseWriter) (data : GoString),
      sw.Write data = (sw, data.length, none)) ∧
    (∀ cs : List WriterCall,
      (auth_request.subResponseWriter.serve ⟨0, []⟩ cs).statusCode =
        (lastWriteHeader cs).getD 0) ∧
    ∃ sub, (auth_request.ServeHTTP net server ar w r next).trace.head? =
        some (.serverServeHTTP sub) ∧
      (noWriteHeader (server sub) = true →
        (auth_request.ServeHTTP net server ar w r next).result =
            some (.errorString (ascii "sub-request returned unexpected error code [0]")) ∧
          (auth_request.ServeHTTP net server ar w r next).trace.filter
            auth_request.Event.isNext = []) ∧
      ∀ server2 : Server U, lastWriteHeader (server2 sub) = lastWriteHeader (server sub) →
        auth_request.ServeHTTP net server2 ar w r next =
          auth_request.ServeHTTP net server ar w r next := by
  refine ⟨fun sw data => rfl, fun cs => auth_serve_statusCode cs _,
    Request.mk (ascii "GET") (net.removeEmptyPort u)
      ((r.Header.Clone.Del (ascii "Content-Type")).Del (ascii "Content-Length")) none
      (net.Host (net.removeEmptyPort u)), ?_, ?_, ?_⟩
  · simp only [auth_request.ServeHTTP, newRequest_GET net _ u hparse, heap_sub, heap_orig]
    split_ifs <;> rfl
  · intro h
    have hs := auth_serve_statusCode (server (Request.mk (ascii "GET") (net.removeEmptyPort u)
      ((r.Header.Clone.Del (ascii "Content-Type")).Del (ascii "Content-Length")) none
      (net.Host (net.removeEmptyPort u)))) ⟨0, []⟩
    rw [lastWriteHeader_of_noWriteHeader _ h] at hs
    simp only [Option.getD_none] at hs
    have hmsg : ascii "sub-request returned unexpected error code [" ++ ascii (toString (0 : Int))
        ++ ascii "]" = ascii "sub-request returned unexpected error code [0]" := by decide
    simp only [auth_request.ServeHTTP, newRequest_GET net _ u hparse, heap_sub, heap_orig, hs]
    simp [auth_request.Event.isNext, hmsg]
  · intro server2 h
    have hs := auth_serve_statusCode (server (Request.mk (ascii "GET") (net.removeEmptyPort u)
      ((r.Header.Clone.Del (ascii "Content-Type")).Del (ascii "Content-Length")) none
      (net.Host (net.removeEmptyPort u)))) ⟨0, []⟩
    have hs2 := auth_serve_statusCode (server2 (Request.mk (ascii "GET")
      (net.removeEmptyPort u)
      ((r.Header.Clone.Del (ascii "Content-Type")).Del (ascii "Content-Length")) none
      (net.Host (net.removeEmptyPort u)))) ⟨0, []⟩
    rw [h] at hs2
    simp only [auth_request.ServeHTTP, newRequest_GET net _ u hparse, heap_sub, heap_orig, hs, hs2]

/-- C10 at a sample: the origin server writes two chunks and no status; the
handler returns the error for code 0 and does not call the next handler. -/
theorem C10_status_from_last_WriteHeader_witness :
    (auth_request.ServeHTTP sampleNet respondBodyOnly sampleAuthRequest 7 sampleRequest
        sampleNext).result =
        some (.errorString (ascii "sub-request returned unexpected error code [0]")) ∧
    (auth_request.ServeHTTP sampleNet respondBodyOnly sampleAuthRequest 7 sampleRequest
        sampleNext).trace.filter auth_request.Event.isNext = [] := by
  obtain ⟨_, _, sub, _, h, _⟩ :=
    C10_status_from_last_WriteHeader sampleNet respondBodyOnly sampleAuthRequest 7
      sampleRequest sampleNext (ascii "/auth") rfl
  exact h rfl

/-- C3. A pause whose resource type is Document and whose URL is the
navigation URL `"http://" + r.Host + r.URL.RequestURI()` makes the relay issue
one fulfillment and no call of the origin server; the fulfillment carries the
identifier of the pause, the status of the captured response, as entries the
list of the `(name, value)` pairs of the captured header map, one per value
and no other, and a body
whose base64 decoding is the captured body. In a run of `ServeHTTP` the relay
works on the recorder that the next handler left and with that navigation
URL. -/
theorem C3_navigation_fulfilled_from_capture {U : Type} (net : NetURL U)
    (unmarshalHeaders : GoString → Except GoError (List (GoString × GoString)))
    (server : Server U) (fulfillRequest : chrome.FulfillRequestArgs → Option GoError)
    (recorder : chrome.ResponseRecorder) (r : Request U) (paused : chrome.RequestPausedReply)
    (hdoc : paused.ResourceType = chrome.ResourceTypeDocument)
    (hurl : paused.Request.URL = ascii "http://" ++ r.Host ++ net.RequestURI r.URL) :
    ∃ args, (chrome.relay net unmarshalHeaders server fulfillRequest recorder
          (ascii "http://" ++ r.Host ++ net.RequestURI r.URL) paused).trace =
        [.FulfillRequest args] ∧
      args.RequestID = paused.RequestID ∧
      args.ResponseCode = recorder.statusCode ∧
      args.ResponseHeaders =
        recorder.header.flatMap (fun e => e.2.map (fun v => (⟨e.1, v⟩ : chrome.HeaderEntry))) ∧
      (∀ k v, (⟨k, v⟩ : chrome.HeaderEntry) ∈ args.ResponseHeaders ↔
        ∃ vs, (k, vs) ∈ recorder.header ∧ v ∈ vs) ∧
      (∃ body, args.Body = some body ∧ base64.DecodeString body = some recorder.buf) ∧
      ∀ (a : chrome.Answers) (g : chrome.Relay U) (c : chrome.Chrome) (w : ResponseWriter)
        (header : Header)
        (buf : GoString) (next : chrome.NextHandler U) (navigateUrl : GoString),
        (chrome.Event.goRelay navigateUrl ∈
            (chrome.ServeHTTP net a g c w header buf r next).trace ∨
          chrome.Event.Navigate navigateUrl ∈
            (chrome.ServeHTTP net a g c w header buf r next).trace →
        navigateUrl = ascii "http://" ++ r.Host ++ net.RequestURI r.URL) ∧
        ((chrome.ServeHTTP net a g c w header buf r next).relay = [] ∨
          (chrome.ServeHTTP net a g c w header buf r next).relay =
            (chrome.relayLoop net g
              (next (chrome.NewResponseRecorder w header buf (chrome.shouldBuffer c)) r).1
              (ascii "http://" ++ r.Host ++ net.RequestURI r.URL) g.pauses).trace) := by
  refine ⟨chrome.FulfillRequestArgs.mk paused.RequestID recorder.statusCode
    (chrome.rangeHeader recorder.header []) (some (base64.EncodeToString recorder.buf)),
    ?_, rfl, rfl, ?_, ?_, ⟨_, rfl, ?_⟩, ?_⟩
  · simp [chrome.relay, hdoc, hurl, chrome.NewFulfillRequestArgs,
      chrome.FulfillRequestArgs.SetResponseHeaders, chrome.FulfillRequestArgs.SetBody,
      chrome.ResponseRecorder.toResponse]
  · simp [rangeHeader_eq]
  · intro k v
    exact mem_rangeHeader recorder.header k v
  · exact base64.DecodeString_EncodeToString recorder.buf
  · intro a g c w header buf next navigateUrl
    exact ⟨ServeHTTP_navigateUrl net a g c w header buf r next navigateUrl,
      ServeHTTP_relay net a g c w header buf r next⟩

/-- C3 at a sample: the navigation to `http://localhost:9080/` with a captured
response of status 200. -/
theorem C3_navigation_fulfilled_from_capture_witness :
    ∃ args, (chrome.relay sampleNet sampleUnmarshalHeaders (respond 404) sampleFulfill
          sampleRecorder (ascii "http://" ++ sampleRequest.Host ++
            sampleNet.RequestURI sampleRequest.URL) sampleNavigation).trace =
        [.FulfillRequest args] ∧
      args.RequestID = sampleNavigation.RequestID ∧
      args.ResponseCode = sampleRecorder.statusCode ∧
      args.ResponseHeaders =
        [⟨ascii "Content-Type", ascii "text/html"⟩, ⟨ascii "Set-Cookie", ascii "a=1"⟩,
         ⟨ascii "Set-Cookie", ascii "b=2"⟩, ⟨ascii "Content-Length", ascii "3"⟩] ∧
      ∃ body, args.Body = some body ∧ base64.DecodeString body = some sampleRecorder.buf := by
  obtain ⟨args, h1, h2, h3, h4, _, h5, _⟩ :=
    C3_navigation_fulfilled_from_capture sampleNet sampleUnmarshalHeaders (respond 404)
      sampleFulfill sampleRecorder sampleRequest sampleNavigation rfl (by decide)
  refine ⟨args, h1, h2, h3, ?_, h5⟩
  rw [h4]
  decide

/-- C5. Every fulfillment that the relay issues is built from a resolved
response, the captured one or the one the origin server wrote for a
synthesized request, and carries its status. When the keys of the header map
of that response are pairwise distinct, the entries of the fulfillment hold
under each name exactly the values the map stores under it, in their order
(none for a name that is not a key), and there are as many entries as there
are values in the map. -/
theorem C5_entries_keep_multiplicity {U : Type} (net : NetURL U)
    (unmarshalHeaders : GoString → Except GoError (List (GoString × GoString)))
    (server : Server U) (fulfillRequest : chrome.FulfillRequestArgs → Option GoError)
    (recorder : chrome.ResponseRecorder) (navigateUrl : GoString)
    (paused : chrome.RequestPausedReply) (args : chrome.FulfillRequestArgs)
    (hargs : chrome.RelayEvent.FulfillRequest args ∈
      (chrome.relay net unmarshalHeaders server fulfillRequest recorder navigateUrl
        paused).trace) :
    ∃ res : chrome.response,
      (res = recorder.toResponse ∨
        ∃ sub, chrome.RelayEvent.serverServeHTTP sub ∈
            (chrome.relay net unmarshalHeaders server fulfillRequest recorder navigateUrl
              paused).trace ∧
          res = (chrome.subResponseWriter.serve ⟨0, [], []⟩ (server sub)).toResponse) ∧
      args.ResponseCode = res.Status ∧
      (res.Header.WellFormed →
        (∀ k, (args.ResponseHeaders.filter (fun e => e.Name == k)).map (fun e => e.Value) =
          (res.Header.index k).getD []) ∧
        (∀ k, (args.ResponseHeaders.filter (fun e => e.Name == k)).length =
          ((res.Header.index k).getD []).length) ∧
        args.ResponseHeaders.length = (res.Header.map (fun e => e.2.length)).sum) := by
  have key : ∀ res : chrome.response, res.Header.WellFormed →
      (∀ k, ((chrome.rangeHeader res.Header []).filter (fun e => e.Name == k)).map
        (fun e => e.Value) = (res.Header.index k).getD []) ∧
      (∀ k, ((chrome.rangeHeader res.Header []).filter (fun e => e.Name == k)).length =
        ((res.Header.index k).getD []).length) ∧
      (chrome.rangeHeader res.Header []).length =
        (res.Header.map (fun e => e.2.length)).sum := by
    intro res hwf
    refine ⟨fun k => filter_rangeHeader res.Header hwf k, fun k => ?_,
      length_rangeHeader res.Header⟩
    rw [← filter_rangeHeader res.Header hwf k, List.length_map]
  unfold chrome.relay at hargs ⊢
  by_cases hnav : paused.ResourceType = chrome.ResourceTypeDocument ∧
      paused.Request.URL = navigateUrl
  · simp only [if_pos hnav, List.nil_append, List.mem_singleton,
      chrome.RelayEvent.FulfillRequest.injEq] at hargs
    subst hargs
    exact ⟨recorder.toResponse, Or.inl rfl, rfl, key _⟩
  · simp only [if_neg hnav] at hargs ⊢
    cases hreq : NewRequestWithContext net paused.Request.Method paused.Request.URL with
    | error err => simp [hreq] at hargs
    | ok subRequest =>
      cases hdec : unmarshalHeaders paused.Request.Headers with
      | error err => simp [hreq, hdec] at hargs
      | ok headers =>
        simp only [hreq, hdec, List.singleton_append, List.mem_cons, List.mem_singleton,
          reduceCtorEq, chrome.RelayEvent.FulfillRequest.injEq, false_or, or_false,
          List.not_mem_nil] at hargs ⊢
        subst hargs
        exact ⟨_, Or.inr ⟨_, rfl, rfl⟩, rfl, key _⟩

/-- C5 at a sample: the navigation pause answered from the captured response,
whose map holds two `Set-Cookie` values: the fulfillment has four entries, two
of them named `Set-Cookie`, with the two values in their order. -/
theorem C5_entries_keep_multiplicity_witness :
    ∃ args, chrome.RelayEvent.FulfillRequest args ∈
        (chrome.relay sampleNet sampleUnmarshalHeaders (respond 404) sampleFulfill
          sampleRecorder (ascii "http://localhost:9080/") sampleNavigation).trace ∧
      (args.ResponseHeaders.filter (fun e => e.Name == ascii "Set-Cookie")).map
        (fun e => e.Value) = [ascii "a=1", ascii "b=2"] ∧
      args.ResponseHeaders.length = 4 := by
  have hmem : chrome.RelayEvent.FulfillRequest
      (chrome.FulfillRequestArgs.mk (ascii "interception-1") 200
        (chrome.rangeHeader sampleRecorder.header []) (some (ascii "PHA+"))) ∈
      (chrome.relay sampleNet sampleUnmarshalHeaders (respond 404) sampleFulfill
        sampleRecorder (ascii "http://localhost:9080/") sampleNavigation).trace := by
    decide
  obtain ⟨res, hres, _, h⟩ :=
    C5_entries_keep_multiplicity sampleNet sampleUnmarshalHeaders (respond 404) sampleFulfill
      sampleRecorder (ascii "http://localhost:9080/") sampleNavigation _ hmem
  have hcap : res = sampleRecorder.toResponse := by
    rcases hres with h1 | ⟨sub, h1, _⟩
    · exact h1
    · have hnone : ∀ e ∈ (chrome.relay sampleNet sampleUnmarshalHeaders (respond 404)
          sampleFulfill sampleRecorder (ascii "http://localhost:9080/")
          sampleNavigation).trace,
          e = chrome.RelayEvent.FulfillRequest
            (chrome.FulfillRequestArgs.mk (ascii "interception-1") 200
              (chrome.rangeHeader sampleRecorder.header []) (some (ascii "PHA+"))) := by
        decide
      exact absurd (hnone _ h1) (by simp)
  subst hcap
  obtain ⟨hvalues, _, hlength⟩ := h (by
    simp only [Header.WellFormed]
    decide)
  refine ⟨_, hmem, ?_, ?_⟩
  · rw [hvalues]
    decide
  · rw [hlength]
    decide

/-- C4, as stated, fails: for the pause `sampleMixedCase`, a sub-resource with
the empty method and the header map `x-a: 1`, `X-A: 2`, the request handed to
the origin server has method GET and the single header `X-A: 2`; the method
differs from the reported one, the name `x-a` is not a key of its header map
and the value `1` is dropped. -/
theorem C4_counterexample :
    ∃ sub args,
      (chrome.relay sampleNet sampleUnmarshalHeaders (respond 200) sampleFulfill sampleRecorder
          (ascii "http://localhost:9080/") sampleMixedCase).trace =
        [.serverServeHTTP sub, .FulfillRequest args] ∧
      sampleUnmarshalHeaders sampleMixedCase.Request.Headers =
        .ok [(ascii "x-a", ascii "1"), (ascii "X-A", ascii "2")] ∧
      sub.Header = [(ascii "X-A", [ascii "2"])] ∧
      sub.Method = ascii "GET" ∧
      ¬ (sub.Method = sampleMixedCase.Request.Method ∧
        ∀ key value, (key, value) ∈ [(ascii "x-a", ascii "1"), (ascii "X-A", ascii "2")] →
          sub.Header.index key = some [value]) := by
  refine ⟨Request.mk (ascii "GET") (ascii "http://localhost:9080/api")
    [(ascii "X-A", [ascii "2"])] none [],
    chrome.FulfillRequestArgs.mk (ascii "interception-3") 200 [] (some (ascii "b2s=")),
    ?_, ?_, rfl, rfl, ?_⟩
  · decide
  · rfl
  · intro h
    exact absurd h.1 (by decide)

/-- C4, amended. For a pause that is a sub-resource, whose method is empty or
a token, whose URL parses and whose header object decodes to `headers`, the
relay makes one call of the origin server and then one fulfillment. The
request of that call has the reported method (GET for the empty method), the
parse of the reported URL and no body. Its header map has no entry but a
canonical form of a reported name with one reported value of such a name,
holds the canonical form of every reported name, and, when the canonical
forms of the reported names are pairwise distinct, holds under the canonical
form of each name exactly its reported value. -/
theorem C4_subresource_request_canonical {U : Type} (net : NetURL U)
    (unmarshalHeaders : GoString → Except GoError (List (GoString × GoString)))
    (server : Server U) (fulfillRequest : chrome.FulfillRequestArgs → Option GoError)
    (recorder : chrome.ResponseRecorder) (navigateUrl : GoString)
    (paused : chrome.RequestPausedReply) (u : U) (headers : List (GoString × GoString))
    (hsub : ¬ (paused.ResourceType = chrome.ResourceTypeDocument ∧
      paused.Request.URL = navigateUrl))
    (hmethod : paused.Request.Method = [] ∨ validMethod paused.Request.Method = true)
    (hparse : net.Parse paused.Request.URL = .ok u)
    (hheaders : unmarshalHeaders paused.Request.Headers = .ok headers) :
    ∃ sub args,
      (chrome.relay net unmarshalHeaders server fulfillRequest recorder navigateUrl
          paused).trace = [.serverServeHTTP sub, .FulfillRequest args] ∧
      sub.Method = (if paused.Request.Method = [] then ascii "GET" else paused.Request.Method) ∧
      sub.URL = net.removeEmptyPort u ∧ sub.Body = none ∧
      (∀ k vs, sub.Header.index k = some vs →
        ∃ key value, (key, value) ∈ headers ∧ CanonicalMIMEHeaderKey key = k ∧ vs = [value]) ∧
      (∀ key value, (key, value) ∈ headers →
        (sub.Header.index (CanonicalMIMEHeaderKey key)).isSome = true) ∧
      ((headers.map (fun e => CanonicalMIMEHeaderKey e.1)).Nodup →
        ∀ key value, (key, value) ∈ headers →
          sub.Header.index (CanonicalMIMEHeaderKey key) = some [value]) := by
  have hvalid : validMethod
      (if paused.Request.Method = [] then ascii "GET" else paused.Request.Method) = true := by
    rcases hmethod with h | h
    · rw [if_pos h]
      decide
    · split_ifs
      · decide
      · exact h
  have hnew : NewRequestWithContext net paused.Request.Method paused.Request.URL =
      .ok (Request.mk (if paused.Request.Method = [] then ascii "GET" else paused.Request.Method)
        (net.removeEmptyPort u) [] none (net.Host (net.removeEmptyPort u))) := by
    simp only [NewRequestWithContext, hvalid, hparse]
    rfl
  refine ⟨Request.mk (if paused.Request.Method = [] then ascii "GET" else paused.Request.Method)
    (net.removeEmptyPort u) (chrome.rangeSet headers []) none
    (net.Host (net.removeEmptyPort u)), ?args, ?htrace, rfl, rfl, rfl, ?_, ?_, ?_⟩
  case htrace =>
    simp only [chrome.relay, if_neg hsub, hnew, hheaders]
    exact rfl
  · intro k vs hk
    simp only [rangeSet_index] at hk
    cases hf : List.find? (fun e => CanonicalMIMEHeaderKey e.1 == k) headers.reverse with
    | none =>
      rw [hf] at hk
      simp [Header.index] at hk
    | some e =>
      rw [hf] at hk
      have hmem : e ∈ headers := by
        simpa using List.mem_of_find?_eq_some hf
      have hkey : CanonicalMIMEHeaderKey e.1 = k := by
        simpa using List.find?_some hf
      simp only [Option.some.injEq] at hk
      exact ⟨e.1, e.2, hmem, hkey, hk.symm⟩
  · intro key value hmem
    simp only [rangeSet_index]
    cases hf : List.find? (fun e => CanonicalMIMEHeaderKey e.1 == CanonicalMIMEHeaderKey key)
        headers.reverse with
    | none =>
      have := List.find?_eq_none.1 hf (key, value) (by simpa using hmem)
      simp at this
    | some e => rfl
  · intro hnd key value hmem
    simp only [rangeSet_index]
    cases hf : List.find? (fun e => CanonicalMIMEHeaderKey e.1 == CanonicalMIMEHeaderKey key)
        headers.reverse with
    | none =>
      have := List.find?_eq_none.1 hf (key, value) (by simpa using hmem)
      simp at this
    | some e =>
      have hmem2 : e ∈ headers := by
        simpa using List.mem_of_find?_eq_some hf
      have hkey : CanonicalMIMEHeaderKey e.1 = CanonicalMIMEHeaderKey key := by
        simpa using List.find?_some hf
      have he : e = (key, value) :=
        List.inj_on_of_nodup_map hnd hmem2 hmem hkey
      simp [he]

/-- C4 amended, at a sample: an XHR request with the header fields `accept`
and `X-Requested-With`. -/
theorem C4_subresource_request_canonical_witness :
    ∃ sub args,
      (chrome.relay sampleNet sampleUnmarshalHeaders (respond 200) sampleFulfill sampleRecorder
          (ascii "http://localhost:9080/") sampleSubresource).trace =
        [.serverServeHTTP sub, .FulfillRequest args] ∧
      sub.Method = ascii "GET" ∧ sub.URL = ascii "http://localhost:9080/api" ∧
      sub.Header.index (ascii "Accept") = some [ascii "*/*"] ∧
      sub.Header.index (ascii "X-Requested-With") = some [ascii "XMLHttpRequest"] := by
  obtain ⟨sub, args, htrace, hm, hu, _, _, _, hh⟩ :=
    C4_subresource_request_canonical sampleNet sampleUnmarshalHeaders (respond 200)
      sampleFulfill sampleRecorder (ascii "http://localhost:9080/") sampleSubresource
      (ascii "http://localhost:9080/api")
      [(ascii "accept", ascii "*/*"), (ascii "X-Requested-With", ascii "XMLHttpRequest")]
      (by decide) (Or.inr (by decide)) rfl rfl
  refine ⟨sub, args, htrace, ?_, hu, ?_, ?_⟩
  · rw [hm]
    decide
  · exact hh (by decide) (ascii "accept") (ascii "*/*") (by decide)
  · exact hh (by decide) (ascii "X-Requested-With") (ascii "XMLHttpRequest") (by decide)

/-- C7, as stated, fails: with the relay `fulfillFails` the browser answers
the fulfillment of the navigation pause with an error, an automation call that
fails during the render phase; the relay goroutine panics with that error and
the handler returns no error. -/
theorem C7_counterexample :
    (chrome.relay sampleNet fulfillFails.unmarshalHeaders fulfillFails.server
        fulfillFails.fulfillRequest
        { sampleRecorder with w := 7, shouldBuffer := chrome.shouldBuffer sampleChrome }
        (ascii "http://localhost:9080/") sampleNavigation).panic =
      some (.errorString (ascii "rpcc: the connection is closing")) ∧
    (chrome.ServeHTTP sampleNet sampleAnswers fulfillFails sampleChrome 7 [] [] sampleRequest
        sampleChromeNext).panic = some (.errorString (ascii "rpcc: the connection is closing")) ∧
    ¬ (chrome.ServeHTTP sampleNet sampleAnswers fulfillFails sampleChrome 7 [] [] sampleRequest
        sampleChromeNext).result ≠ none := by
  decide

/-- C7, amended. When the next handler returned nil and left a buffered
response, and a step of the handler fails or the relay goroutine panics: the
status, header map and body of the recorder are what the next handler left and
the response is not written; the handler returns an error when the goroutine
did not panic, and does not return when it did. -/
theorem C7_failure_writes_nothing {U : Type} (net : NetURL U) (a : chrome.Answers)
    (g : chrome.Relay U) (c : chrome.Chrome) (w : ResponseWriter) (header : Header)
    (buf : GoString) (r : Request U) (next : chrome.NextHandler U)
    (captured : chrome.ResponseRecorder)
    (hnext : next (chrome.NewResponseRecorder w header buf (chrome.shouldBuffer c)) r =
      (captured, none))
    (hbuf : captured.Buffered = true)
    (hfail : a.fails = true ∨
      (chrome.ServeHTTP net a g c w header buf r next).panic ≠ none) :
    ((chrome.ServeHTTP net a g c w header buf r next).panic = none →
      (chrome.ServeHTTP net a g c w header buf r next).result ≠ none) ∧
    ((chrome.ServeHTTP net a g c w header buf r next).panic ≠ none →
      (chrome.ServeHTTP net a g c w header buf r next).result = none) ∧
    (chrome.ServeHTTP net a g c w header buf r next).recorder.buf = captured.buf ∧
    (chrome.ServeHTTP net a g c w header buf r next).recorder.header = captured.header ∧
    (chrome.ServeHTTP net a g c w header buf r next).recorder.statusCode = captured.statusCode ∧
    (chrome.ServeHTTP net a g c w header buf r next).trace.filter
      chrome.Event.isWriteResponse = [] := by
  revert hfail
  unfold chrome.ServeHTTP
  simp only [hnext, hbuf]
  cases hp : (chrome.relayLoop net g captured
      (ascii "http://" ++ r.Host ++ net.RequestURI r.URL) g.pauses).panic <;>
  · repeat' split
    all_goals simp_all [chrome.Run.call, chrome.Run.ret, chrome.Run.defer, chrome.Run.go,
      chrome.Event.isWriteResponse, chrome.Answers.fails]

/-- C7 amended, at two samples: the navigation reply carries the error text
`net::ERR_ABORTED` and the handler returns that text as an error; the
fulfillment fails and the handler does not return; in both the captured
response stays as it was, unwritten. -/
theorem C7_failure_writes_nothing_witness :
    ((chrome.ServeHTTP sampleNet navigationFails sampleRelay sampleChrome 7 [] [] sampleRequest
        sampleChromeNext).result = some (.errorString (ascii "net::ERR_ABORTED")) ∧
      (chrome.ServeHTTP sampleNet navigationFails sampleRelay sampleChrome 7 [] []
        sampleRequest sampleChromeNext).recorder.buf = ascii "<p>" ∧
      (chrome.ServeHTTP sampleNet navigationFails sampleRelay sampleChrome 7 [] []
        sampleRequest sampleChromeNext).trace.filter chrome.Event.isWriteResponse = []) ∧
    ((chrome.ServeHTTP sampleNet sampleAnswers fulfillFails sampleChrome 7 [] [] sampleRequest
        sampleChromeNext).result = none ∧
      (chrome.ServeHTTP sampleNet sampleAnswers fulfillFails sampleChrome 7 [] [] sampleRequest
        sampleChromeNext).recorder.buf = ascii "<p>" ∧
      (chrome.ServeHTTP sampleNet sampleAnswers fulfillFails sampleChrome 7 [] [] sampleRequest
        sampleChromeNext).trace.filter chrome.Event.isWriteResponse = []) := by
  obtain ⟨_, _, hb1, _, _, hw1⟩ :=
    C7_failure_writes_nothing sampleNet navigationFails sampleRelay sampleChrome 7 [] []
      sampleRequest sampleChromeNext
      { sampleRecorder with w := 7, shouldBuffer := chrome.shouldBuffer sampleChrome }
      rfl rfl (Or.inl (by decide))
  obtain ⟨_, hr2, hb2, _, _, hw2⟩ :=
    C7_failure_writes_nothing sampleNet sampleAnswers fulfillFails sampleChrome 7 [] []
      sampleRequest sampleChromeNext
      { sampleRecorder with w := 7, shouldBuffer := chrome.shouldBuffer sampleChrome }
      rfl rfl (Or.inr (by decide))
  exact ⟨⟨by decide, hb1, hw1⟩, ⟨hr2 (by decide), hb2, hw2⟩⟩

/-- C6. When the next handler returned nil and left a buffered response, no
step of the render phase fails and the relay goroutine does not panic, with
`m` the decoded markup: at the return
the body of the recorder is `<!doctype html>`, a line feed and `m`; its header
map is the captured one without the keys `Content-Length`, `Accept-Ranges`,
`Etag` and `Last-Modified`, every other key with its values; its status is the
captured one; the response is written once, in that state, and the result of
that write is returned. -/
theorem C6_rewrite_then_write_once {U : Type} (net : NetURL U) (a : chrome.Answers)
    (c : chrome.Chrome) (w : ResponseWriter) (header : Header) (buf : GoString)
    (r : Request U) (next : chrome.NextHandler U) (captured : chrome.ResponseRecorder)
    (evalReply : chrome.EvaluateReply) (m : GoString) (g : chrome.Relay U)
    (hnext : next (chrome.NewResponseRecorder w header buf (chrome.shouldBuffer c)) r =
      (captured, none))
    (hbuf : captured.Buffered = true)
    (hok : a.fails = false)
    (hrelay : (chrome.relayLoop net g captured
      (ascii "http://" ++ r.Host ++ net.RequestURI r.URL) g.pauses).panic = none)
    (heval : a.Evaluate = .ok evalReply)
    (hm : a.Unmarshal evalReply.ResultValue = .ok m) :
    (chrome.ServeHTTP net a g c w header buf r next).recorder.buf =
      ascii "<!doctype html>\n" ++ m ∧
    (∀ k, (chrome.ServeHTTP net a g c w header buf r next).recorder.header.index k =
      if k = ascii "Content-Length" ∨ k = ascii "Accept-Ranges" ∨ k = ascii "Etag" ∨
          k = ascii "Last-Modified" then none
      else captured.header.index k) ∧
    (chrome.ServeHTTP net a g c w header buf r next).recorder.header =
      captured.header.filter (fun e => e.1 != ascii "Content-Length" &&
        e.1 != ascii "Accept-Ranges" && e.1 != ascii "Etag" && e.1 != ascii "Last-Modified") ∧
    (chrome.ServeHTTP net a g c w header buf r next).recorder.statusCode = captured.statusCode ∧
    (chrome.ServeHTTP net a g c w header buf r next).trace.filter chrome.Event.isWriteResponse =
      [.WriteResponse (chrome.ServeHTTP net a g c w header buf r next).recorder.toResponse] ∧
    (chrome.ServeHTTP net a g c w header buf r next).result = a.WriteResponse := by
  have h1 : CanonicalMIMEHeaderKey (ascii "Content-Length") = ascii "Content-Length" := by
    decide
  have h2 : CanonicalMIMEHeaderKey (ascii "Accept-Ranges") = ascii "Accept-Ranges" := by
    decide
  have h3 : CanonicalMIMEHeaderKey (ascii "Etag") = ascii "Etag" := by decide
  have h4 : CanonicalMIMEHeaderKey (ascii "Last-Modified") = ascii "Last-Modified" := by
    decide
  have hidx : ∀ k, ((((captured.header.Del (ascii "Content-Length")).Del
      (ascii "Accept-Ranges")).Del (ascii "Etag")).Del (ascii "Last-Modified")).index k =
      if k = ascii "Content-Length" ∨ k = ascii "Accept-Ranges" ∨ k = ascii "Etag" ∨
          k = ascii "Last-Modified" then none
      else captured.header.index k := by
    intro k
    simp only [Header.Del, h1, h2, h3, h4, Header.index_delete]
    split_ifs <;> simp_all
  have hflt : (((captured.header.Del (ascii "Content-Length")).Del
      (ascii "Accept-Ranges")).Del (ascii "Etag")).Del (ascii "Last-Modified") =
      captured.header.filter (fun e => e.1 != ascii "Content-Length" &&
        e.1 != ascii "Accept-Ranges" && e.1 != ascii "Etag" && e.1 != ascii "Last-Modified") := by
    simp only [Header.Del, h1, h2, h3, h4, Header.delete, List.filter_filter]
    congr 1
    funext e
    simp only [Bool.and_assoc, Bool.and_comm, Bool.and_left_comm]
  unfold chrome.ServeHTTP
  simp only [hnext, hbuf]
  repeat' split
  all_goals simp_all [chrome.Run.call, chrome.Run.ret, chrome.Run.defer, chrome.Run.go,
    chrome.Event.isWriteResponse, chrome.Answers.fails, chrome.ResponseRecorder.toResponse]

/-- C6 at a sample: every step succeeds and the markup is `<html></html>`; the
body becomes the doctype line and the markup, `Content-Length` goes, and
`Content-Type` and `Set-Cookie` stay. -/
theorem C6_rewrite_then_write_once_witness :
    (chrome.ServeHTTP sampleNet sampleAnswers sampleRelay sampleChrome 7 [] [] sampleRequest
        sampleChromeNext).recorder.buf = ascii "<!doctype html>\n<html></html>" ∧
    (chrome.ServeHTTP sampleNet sampleAnswers sampleRelay sampleChrome 7 [] [] sampleRequest
        sampleChromeNext).recorder.header =
      [(ascii "Content-Type", [ascii "text/html"]),
       (ascii "Set-Cookie", [ascii "a=1", ascii "b=2"])] ∧
    (chrome.ServeHTTP sampleNet sampleAnswers sampleRelay sampleChrome 7 [] [] sampleRequest
        sampleChromeNext).recorder.statusCode = 200 ∧
    (chrome.ServeHTTP sampleNet sampleAnswers sampleRelay sampleChrome 7 [] [] sampleRequest
        sampleChromeNext).trace.filter chrome.Event.isWriteResponse =
      [.WriteResponse (chrome.ServeHTTP sampleNet sampleAnswers sampleRelay sampleChrome 7 []
        [] sampleRequest sampleChromeNext).recorder.toResponse] ∧
    (chrome.ServeHTTP sampleNet sampleAnswers sampleRelay sampleChrome 7 [] [] sampleRequest
        sampleChromeNext).result = none := by
  obtain ⟨hb, _, hh, hs, ht, hr⟩ :=
    C6_rewrite_then_write_once sampleNet sampleAnswers sampleChrome 7 [] [] sampleRequest
      sampleChromeNext
      { sampleRecorder with w := 7, shouldBuffer := chrome.shouldBuffer sampleChrome }
      { ExceptionDetails := none, ResultValue := ascii "\"<html></html>\"" }
      (ascii "<html></html>") sampleRelay rfl rfl (by decide) rfl rfl rfl
  refine ⟨?_, ?_, hs, ht, hr⟩
  · rw [hb]
    decide
  · rw [hh]
    decide

/-- C8, the run in which `Page.Enable` fails after the browser context and the
page target were created: the handler returns the error, and the calls it
made end with the three deferred connection closes; there is no `CloseTarget`
and no `DisposeBrowserContext` among them. -/
theorem C8_page_enable_failure_disposes_nothing :
    (chrome.ServeHTTP sampleNet pageEnableFails sampleRelay sampleChrome 7 [] [] sampleRequest
        sampleChromeNext).trace =
      [.nextServeHTTP sampleRequest, .Version (ascii "http://localhost:9222"),
       .DialContext (ascii "ws://localhost:9222/devtools/browser/b"), .NewManager,
       .CreateBrowserContext, .CreateTarget (ascii "about:blank") (ascii "context-1"),
       .Dial (ascii "target-1"), .PageEnable,
       .targetConnClose, .sessionManagerClose, .rpccConnClose] ∧
    (chrome.ServeHTTP sampleNet pageEnableFails sampleRelay sampleChrome 7 [] [] sampleRequest
        sampleChromeNext).result =
      some (.errorString (ascii "rpcc: the connection is closing")) ∧
    chrome.Event.CloseTarget (ascii "target-1") ∉
      (chrome.ServeHTTP sampleNet pageEnableFails sampleRelay sampleChrome 7 [] [] sampleRequest
        sampleChromeNext).trace ∧
    chrome.Event.DisposeBrowserContext (ascii "context-1") ∉
      (chrome.ServeHTTP sampleNet pageEnableFails sampleRelay sampleChrome 7 [] [] sampleRequest
        sampleChromeNext).trace := by
  decide

end CaddyModules
